import Mathlib

/-! Profile store of `base/config.go`.

A shallow embedding of the profile store (`AggConfigManager`) of the UCloud
command-line client, and of the two on-disk record shapes it joins.

Modelling decisions, all taken from `src/base/config.go`:

* Go `string` is `String`, Go `int` is `Int` (the program only copies these
  integers, it never computes with them), `*int` is `Option Int`
  (`nil` is `none`).
* A Go `map[string]*T` is an association list with pairwise distinct keys;
  the functions below assume but do not require distinct keys, and separate
  lemmas show that they preserve distinctness.  The iteration order of a Go
  map is unspecified; whenever an order could matter the theorems quantify
  over every permutation.
* The map stores pointers.  `Append` stores the pointer it is given and the
  hand-off writes `ac.Active = false` through the stored pointer; both are
  modelled by replacing the value bound to the key.  This is exact as long as
  the caller does not write through the pointers between calls, which is what
  "a sequence of Append, UpdateAggConfig and DeleteByProfile calls" means here.
* A Go `error` is a message together with the answer `os.IsNotExist` gives
  for it.  `fmt.Errorf` with `%v` builds a fresh error for which that answer
  is `false`.
* The package variable `AggConfigListIns` starts with a nil map, so a call on
  it is modelled on `GlobalStore`, whose map may be nil, and a run-time panic
  is a flag of the result of the call.
* `WriteJSONFile` and the file reads are not part of the source under study:
  the outcome of every write and the decoded content of every read are
  parameters.
-/

namespace UCloud

/-! ## Constants -/

/-- DefaultTimeoutSec: default timeout for requesting api, 15s. -/
def DefaultTimeoutSec : Int := 15

/-- DefaultMaxRetryTimes: the retry count hard-coded before v0.1.21. -/
def DefaultMaxRetryTimes : Int := 3

/-- DefaultBaseURL: location of api server. -/
def DefaultBaseURL : String := "https://api.ucloud.cn/"

/-- DefaultProfile: name of default profile. -/
def DefaultProfile : String := "default"

/-! ## Records -/

/-- CLIConfig: one element of the settings file. -/
structure CLIConfig where
  ProjectID : String
  Region : String
  Zone : String
  BaseURL : String
  Timeout : Int
  Profile : String
  Active : Bool
  MaxRetryTimes : Option Int
  deriving DecidableEq, Repr

/-- CredentialConfig: one element of the credential file. -/
structure CredentialConfig where
  PublicKey : String
  PrivateKey : String
  Profile : String
  deriving DecidableEq, Repr

/-- AggConfig: a merged profile, settings plus credential. -/
structure AggConfig where
  Profile : String
  Active : Bool
  ProjectID : String
  Region : String
  Zone : String
  BaseURL : String
  Timeout : Int
  PublicKey : String
  PrivateKey : String
  MaxRetryTimes : Option Int
  deriving DecidableEq, Repr

/-- The method copyToCLIConfig, applied to a zero-valued target. -/
def AggConfig.copyToCLIConfig (p : AggConfig) : CLIConfig :=
  { Profile := p.Profile
    BaseURL := p.BaseURL
    Timeout := p.Timeout
    ProjectID := p.ProjectID
    Region := p.Region
    Zone := p.Zone
    Active := p.Active
    MaxRetryTimes := p.MaxRetryTimes }

/-- The method copyToCredentialConfig, applied to a zero-valued target. -/
def AggConfig.copyToCredentialConfig (p : AggConfig) : CredentialConfig :=
  { Profile := p.Profile
    PrivateKey := p.PrivateKey
    PublicKey := p.PublicKey }

/-! ## Errors -/

/-- A Go error value: its message and what `os.IsNotExist` answers for it. -/
structure GoError where
  msg : String
  notExist : Bool
  deriving DecidableEq, Repr

/-- The result of `fmt.Errorf`: a fresh error that `os.IsNotExist` rejects. -/
def Errorf (msg : String) : GoError :=
  { msg := msg, notExist := false }

/-! ## Go maps as association lists -/

/-- Map read `m[k]`: the value bound to `k`, if any. -/
def mapGet {α : Type} : List (String × α) → String → Option α
  | [], _ => none
  | (k', v) :: m, k => if k' = k then some v else mapGet m k

/-- Map write `m[k] = v`: rebinds `k` when present, adds it otherwise. -/
def mapSet {α : Type} : List (String × α) → String → α → List (String × α)
  | [], k, v => [(k, v)]
  | (k', v') :: m, k, v => if k' = k then (k, v) :: m else (k', v') :: mapSet m k v

/-- Map removal `delete(m, k)`. -/
def mapDelete {α : Type} : List (String × α) → String → List (String × α)
  | [], _ => []
  | (k', v) :: m, k => if k' = k then mapDelete m k else (k', v) :: mapDelete m k

/-- The keys of a map, in storage order. -/
def mapKeys {α : Type} (m : List (String × α)) : List String :=
  m.map Prod.fst

/-- Well-formedness of the representation: no key is bound twice. -/
def NodupKeys {α : Type} (m : List (String × α)) : Prop :=
  (mapKeys m).Nodup

/-! ## The store -/

/-- AggConfigManager: the tracked active name and the profile map.  The two
file handles of the Go struct only name the targets of the writes. -/
structure AggConfigManager where
  activeProfile : String
  configs : List (String × AggConfig)
  deriving DecidableEq, Repr

/-- The store that NewAggConfigManager starts from: `make(map)` and the zero
string. -/
def AggConfigManager.empty : AggConfigManager :=
  { activeProfile := "", configs := [] }

/-- One call of WriteJSONFile issued by Save. -/
inductive WriteRequest where
  | configFile (records : List CLIConfig)
  | credFile (records : List CredentialConfig)
  deriving DecidableEq, Repr

/-- What the two calls of WriteJSONFile in one Save return (`none` is `nil`). -/
structure WriteOutcome where
  aerr : Option GoError
  berr : Option GoError
  deriving DecidableEq, Repr

/-- Both writes succeed. -/
def WriteOutcome.ok : WriteOutcome :=
  { aerr := none, berr := none }

/-- What a mutating call leaves behind: the store, the writes it issued in
order, and the returned error (`none` is `nil`). -/
structure OpResult where
  mgr : AggConfigManager
  writes : List WriteRequest
  err : Option GoError
  deriving DecidableEq, Repr

/-- The two record lists Save builds from the map (lines 304 to 314). -/
def SaveRecords (p : AggConfigManager) : List CLIConfig × List CredentialConfig :=
  (p.configs.map (fun kv => kv.2.copyToCLIConfig),
   p.configs.map (fun kv => kv.2.copyToCredentialConfig))

/-- The error Save returns for the outcomes of its two writes (lines 318 to 327). -/
def SaveError (w : WriteOutcome) : Option GoError :=
  match w.aerr, w.berr with
  | some a, some b =>
      some (Errorf ("save cli config failed: " ++ a.msg ++ " | save credentail failed: " ++ b.msg))
  | some a, none => some (Errorf ("save cli config failed: " ++ a.msg))
  | none, some b => some (Errorf ("save cerdentail failed: " ++ b.msg))
  | none, none => none

/-- Save: configs to local file.  Both writes are issued, then the errors are
combined; the store is not touched. -/
def Save (p : AggConfigManager) (w : WriteOutcome) : OpResult :=
  { mgr := p
    writes := [WriteRequest.configFile (SaveRecords p).1, WriteRequest.credFile (SaveRecords p).2]
    err := SaveError w }

/-- The statement `if ac, ok := p.configs[p.activeProfile]; ok { ac.Active = false }`. -/
def demote (m : List (String × AggConfig)) (k : String) : List (String × AggConfig) :=
  match mapGet m k with
  | some ac => mapSet m k { ac with Active := false }
  | none => m

/-- The active hand-off shared by Append (lines 220 to 225) and
UpdateAggConfig (lines 236 to 241). -/
def handOff (p : AggConfigManager) (config : AggConfig) : AggConfigManager :=
  if config.Active = true ∧ config.Profile ≠ p.activeProfile then
    { activeProfile := config.Profile, configs := demote p.configs p.activeProfile }
  else p

/-- Append: config to list, error if the profile exists already. -/
def Append (p : AggConfigManager) (config : AggConfig) (w : WriteOutcome) : OpResult :=
  match mapGet p.configs config.Profile with
  | some _ =>
      { mgr := p, writes := [], err := some (Errorf ("profile " ++ config.Profile ++ " exists already")) }
  | none =>
      let p1 := handOff p config
      Save { p1 with configs := mapSet p1.configs config.Profile config } w

/-- UpdateAggConfig: update AggConfig, append if not exist. -/
def UpdateAggConfig (p : AggConfigManager) (config : AggConfig) (w : WriteOutcome) : OpResult :=
  match mapGet p.configs config.Profile with
  | none => Append p config w
  | some _ => Save (handOff p config) w

/-- DeleteByProfile: remove the profile from the map and the local files. -/
def DeleteByProfile (p : AggConfigManager) (profile : String) (w : WriteOutcome) : OpResult :=
  match mapGet p.configs profile with
  | none => { mgr := p, writes := [], err := some (Errorf ("profile: " ++ profile ++ " is not exist")) }
  | some ac =>
      if ac.Active = true then
        { mgr := p, writes := [], err := some (Errorf "can't delete active profile") }
      else
        let r := Save { p with configs := mapDelete p.configs profile } w
        match r.err with
        | some e => { r with err := some (Errorf ("delete profile " ++ profile ++ " failed: " ++ e.msg)) }
        | none => r

/-- GetAggConfigByProfile: config of the given profile. -/
def GetAggConfigByProfile (p : AggConfigManager) (profile : String) : Option AggConfig :=
  mapGet p.configs profile

/-- GetActiveAggConfig: the profile bound to the tracked active name. -/
def GetActiveAggConfig (p : AggConfigManager) : Except GoError AggConfig :=
  match mapGet p.configs p.activeProfile with
  | some ac => Except.ok ac
  | none => Except.error (Errorf "active profile not found. see 'ucloud config list'")

/-- GetActiveAggConfigName: the name of the active profile, or the empty string. -/
def GetActiveAggConfigName (p : AggConfigManager) : String :=
  match mapGet p.configs p.activeProfile with
  | some ac => ac.Profile
  | none => ""

/-! ## Reading the two files -/

/-- What `ioutil.ReadAll` followed by `json.Unmarshal` yields for one file. -/
inductive FileContent (α : Type) where
  | readError (e : GoError)
  | empty
  | malformed (e : GoError)
  | decoded (records : List α)
  deriving Repr

/-- The loop body of parseCLIConfigs (lines 408 to 410) on one record. -/
def backfillMaxRetry (c : CLIConfig) : CLIConfig :=
  match c.MaxRetryTimes with
  | none => { c with MaxRetryTimes := some DefaultMaxRetryTimes }
  | some _ => c

/-- The method parseCLIConfigs. -/
def parseCLIConfigs (f : FileContent CLIConfig) : Except GoError (List CLIConfig) :=
  match f with
  | .readError e => .error e
  | .empty => .ok []
  | .malformed e => .error (Errorf ("parse cli config faild: " ++ e.msg))
  | .decoded configs => .ok (configs.map backfillMaxRetry)

/-- The method parseCredentials. -/
def parseCredentials (f : FileContent CredentialConfig) : Except GoError (List CredentialConfig) :=
  match f with
  | .readError e => .error e
  | .empty => .ok []
  | .malformed e => .error (Errorf ("parse credential failed: " ++ e.msg))
  | .decoded credentials => .ok credentials

/-- What Load leaves behind: the store and the returned error. -/
structure LoadResult where
  mgr : AggConfigManager
  err : Option GoError
  deriving DecidableEq, Repr

/-- The map `configMap` after the loop of lines 258 to 264. -/
def configMapOf (configs : List CLIConfig) : List (String × CLIConfig) :=
  configs.foldl (fun m c => mapSet m c.Profile c) []

/-- The field `p.activeProfile` after the loop of lines 258 to 264, from its
value `init` before the loop. -/
def resolveActive (init : String) (configs : List CLIConfig) : String :=
  configs.foldl (fun a c => if c.Active = true then c.Profile else a) init

/-- The map `credMap` after the loop of lines 266 to 269. -/
def credMapOf (credentials : List CredentialConfig) : List (String × CredentialConfig) :=
  credentials.foldl (fun m c => mapSet m c.Profile c) []

/-- The composite literal of lines 278 to 289. -/
def mergeProfile (config : CLIConfig) (cred : CredentialConfig) : AggConfig :=
  { PrivateKey := cred.PrivateKey
    PublicKey := cred.PublicKey
    Profile := config.Profile
    ProjectID := config.ProjectID
    Region := config.Region
    Zone := config.Zone
    BaseURL := config.BaseURL
    Timeout := config.Timeout
    Active := config.Active
    MaxRetryTimes := config.MaxRetryTimes }

/-- One iteration of the loop of lines 271 to 290. -/
def joinStep (credMap : List (String × CredentialConfig)) (store : List (String × AggConfig))
    (kv : String × CLIConfig) : List (String × AggConfig) :=
  match mapGet credMap kv.1 with
  | none => store
  | some cred => mapSet store kv.1 (mergeProfile kv.2 cred)

/-- The map `p.configs` after the loop of lines 271 to 290, visiting the
entries of `configMap` in the given order. -/
def joinProfiles (credMap : List (String × CredentialConfig)) (store : List (String × AggConfig))
    (configMap : List (String × CLIConfig)) : List (String × AggConfig) :=
  configMap.foldl (joinStep credMap) store

/-- Lines 256 to 300 of Load: everything after the two files are parsed. -/
def loadJoin (p : AggConfigManager) (configs : List CLIConfig)
    (credentials : List CredentialConfig) : LoadResult :=
  let configMap := configMapOf configs
  let activeProfile := resolveActive p.activeProfile configs
  let credMap := credMapOf credentials
  let mgr : AggConfigManager :=
    { activeProfile := activeProfile, configs := joinProfiles credMap p.configs configMap }
  if activeProfile = "" ∧ configMap.length > 0 then
    { mgr := mgr
      err := some (Errorf "no active config found, run 'ucloud config list' to check") }
  else if activeProfile ≠ "" ∧ mapGet credMap activeProfile = none then
    { mgr := mgr
      err := some (Errorf ("profile " ++ activeProfile ++
        "'s credential don't exist, run 'ucloud config list' to check")) }
  else
    { mgr := mgr, err := none }

/-- Load: AggConfigList from the two local files. -/
def Load (p : AggConfigManager) (configFile : FileContent CLIConfig)
    (credFile : FileContent CredentialConfig) : LoadResult :=
  match parseCLIConfigs configFile with
  | .error e => { mgr := p, err := some (Errorf ("read config failed: " ++ e.msg)) }
  | .ok configs =>
      match parseCredentials credFile with
      | .error e => { mgr := p, err := some (Errorf ("read credential failed: " ++ e.msg)) }
      | .ok credentials => loadJoin p configs credentials

/-! ## Sequences of calls -/

/-- One mutating call on the store, with the outcome of its writes. -/
inductive Call where
  | append (config : AggConfig) (w : WriteOutcome)
  | update (config : AggConfig) (w : WriteOutcome)
  | delete (profile : String) (w : WriteOutcome)
  deriving DecidableEq, Repr

/-- The effect of one call. -/
def Call.apply (p : AggConfigManager) : Call → OpResult
  | .append config w => Append p config w
  | .update config w => UpdateAggConfig p config w
  | .delete profile w => DeleteByProfile p profile w

/-- The store after a sequence of calls issued on `p`, errors ignored. -/
def runFrom (p : AggConfigManager) (calls : List Call) : AggConfigManager :=
  calls.foldl (fun q c => (c.apply q).mgr) p

/-- The store after a sequence of calls issued on the empty store. -/
def run (calls : List Call) : AggConfigManager :=
  runFrom AggConfigManager.empty calls

/-- The number of stored profiles whose Active flag is set. -/
def activeCount (p : AggConfigManager) : Nat :=
  (p.configs.filter (fun kv => kv.2.Active)).length

/-- A profile with the given name and flag and otherwise fixed sample fields. -/
def sampleProfile (name : String) (active : Bool) : AggConfig :=
  { Profile := name
    Active := active
    ProjectID := "org-x"
    Region := "cn-bj2"
    Zone := "cn-bj2-05"
    BaseURL := DefaultBaseURL
    Timeout := DefaultTimeoutSec
    PublicKey := "pk"
    PrivateKey := "sk"
    MaxRetryTimes := some DefaultMaxRetryTimes }

/-- A settings record with the given name and flag and otherwise fixed sample
fields. -/
def sampleSettings (name : String) (active : Bool) (retry : Option Int) : CLIConfig :=
  { ProjectID := "org-x"
    Region := "cn-bj2"
    Zone := "cn-bj2-05"
    BaseURL := DefaultBaseURL
    Timeout := DefaultTimeoutSec
    Profile := name
    Active := active
    MaxRetryTimes := retry }

/-- A credential record with the given name and fixed sample keys. -/
def sampleCredential (name : String) : CredentialConfig :=
  { PublicKey := "pk", PrivateKey := "sk", Profile := name }

/-! ## Legacy migration and store construction -/

/-- OldConfig: the configuration struct of version 0.1.7 and before. -/
structure OldConfig where
  PublicKey : String
  PrivateKey : String
  Region : String
  Zone : String
  ProjectID : String
  deriving DecidableEq, Repr

/-- The zero value `&OldConfig{}`. -/
def OldConfig.zero : OldConfig :=
  { PublicKey := "", PrivateKey := "", Region := "", Zone := "", ProjectID := "" }

/-- What `os.Stat`, `ioutil.ReadFile` and `json.Unmarshal` make of the path
ConfigFilePath: it does not exist, it cannot be read, or the receiver holds
`oc` after the decoding (whose error the source drops, so that a content that
is not a legacy object leaves the zero value). -/
inductive LegacyFile where
  | absent
  | unreadable (e : GoError)
  | content (oc : OldConfig)
  deriving DecidableEq, Repr

/-- The method Load of OldConfig: the record the caller holds afterwards, or
the returned error.  On an absent file the source rebinds its own receiver
only, so the caller keeps the zero value. -/
def OldConfig.Load (f : LegacyFile) : Except GoError OldConfig :=
  match f with
  | .absent => .ok OldConfig.zero
  | .unreadable e => .error e
  | .content oc => .ok oc

/-- The package variable AggConfigListIns as the receiver of a call.  Its map
may be nil (`none`): the variable starts as `&AggConfigManager{}` (line 50) and
only line 563 assigns it a manager built with `make(map)`.  The file handles of
an assigned manager are taken to be open, as everywhere else; those of the
starting value are nil, but line 226 is reached before they are used. -/
structure GlobalStore where
  activeProfile : String
  configs : Option (List (String × AggConfig))
  deriving DecidableEq, Repr

/-- The starting value `&AggConfigManager{}` of line 50. -/
def GlobalStore.zero : GlobalStore :=
  { activeProfile := "", configs := none }

/-- The package variable after a manager has been assigned to it. -/
def GlobalStore.assigned (p : AggConfigManager) : GlobalStore :=
  { activeProfile := p.activeProfile, configs := some p.configs }

/-- What a call on the package variable leaves behind: the variable, the
writes issued, the returned error, and whether the call ended in a run-time
panic instead of returning (then no error is returned). -/
structure GlobalResult where
  global : GlobalStore
  writes : List WriteRequest
  err : Option GoError
  panicked : Bool
  deriving DecidableEq, Repr

/-- Append with the package variable as receiver.  On an allocated map it is
Append.  On the nil map the two reads of lines 216 and 221 find no entry, the
hand-off of line 224 still rebinds the tracked name, and the assignment of
line 226 panics ("assignment to entry in nil map") before Save is reached. -/
def AppendGlobal (g : GlobalStore) (config : AggConfig) (w : WriteOutcome) : GlobalResult :=
  match g.configs with
  | some m =>
      let r := Append { activeProfile := g.activeProfile, configs := m } config w
      { global := GlobalStore.assigned r.mgr, writes := r.writes, err := r.err, panicked := false }
  | none =>
      { global :=
          { activeProfile :=
              if config.Active = true ∧ config.Profile ≠ g.activeProfile then config.Profile
              else g.activeProfile
            configs := none }
        writes := []
        err := none
        panicked := true }

/-- What adaptOldConfig leaves behind: the package variable AggConfigListIns,
whether the legacy file was renamed, the profile built at lines 494 to 505
(`none` when Load of OldConfig fails before), the writes issued, the returned
error, and whether the call ended in a panic instead of returning. -/
structure MigrationResult where
  global : GlobalStore
  renamed : Bool
  built : Option AggConfig
  writes : List WriteRequest
  err : Option GoError
  panicked : Bool
  deriving DecidableEq, Repr

/-- The function adaptOldConfig, run on the package variable `g` with the
legacy file `f`, the outcome `renameErr` of `os.Rename` and the outcome `w` of
the writes of Append. -/
def adaptOldConfig (g : GlobalStore) (f : LegacyFile) (renameErr : Option GoError)
    (w : WriteOutcome) : MigrationResult :=
  match OldConfig.Load f with
  | .error err =>
      { global := g, renamed := false, built := none, writes := [], err := some err,
        panicked := false }
  | .ok oc =>
      let ac : AggConfig :=
        { Profile := DefaultProfile
          ProjectID := oc.ProjectID
          Region := oc.Region
          Zone := oc.Zone
          BaseURL := DefaultBaseURL
          Timeout := DefaultTimeoutSec
          Active := true
          PrivateKey := oc.PrivateKey
          PublicKey := oc.PublicKey
          MaxRetryTimes := some DefaultMaxRetryTimes }
      match renameErr with
      | some err =>
          { global := g, renamed := false, built := some ac, writes := [], err := some err,
            panicked := false }
      | none =>
          let r := AppendGlobal g ac w
          { global := r.global, renamed := true, built := some ac, writes := r.writes,
            err := r.err, panicked := r.panicked }

/-- What NewAggConfigManager leaves behind: the manager it returns, the
package variable AggConfigListIns, whether adaptOldConfig was called, how many
times Load was called, the returned error, and whether the call ended in a
panic instead of returning. -/
structure ConstructResult where
  manager : AggConfigManager
  global : GlobalStore
  migrated : Bool
  loads : Nat
  err : Option GoError
  panicked : Bool
  deriving DecidableEq, Repr

/-- NewAggConfigManager: `cfg1`, `cred1` are what the first Load reads and
`cfg2`, `cred2` what the retry reads; `g`, `f`, `renameErr` and `w` are the
inputs of adaptOldConfig.  HandleError only reports. -/
def NewAggConfigManager (cfg1 : FileContent CLIConfig) (cred1 : FileContent CredentialConfig)
    (g : GlobalStore) (f : LegacyFile) (renameErr : Option GoError) (w : WriteOutcome)
    (cfg2 : FileContent CLIConfig) (cred2 : FileContent CredentialConfig) : ConstructResult :=
  let r1 := Load AggConfigManager.empty cfg1 cred1
  match r1.err with
  | none =>
      { manager := r1.mgr, global := g, migrated := false, loads := 1, err := none,
        panicked := false }
  | some err =>
      if err.notExist = false then
        { manager := r1.mgr, global := g, migrated := false, loads := 1, err := some err,
          panicked := false }
      else
        let a := adaptOldConfig g f renameErr w
        if a.panicked = true then
          { manager := r1.mgr, global := a.global, migrated := true, loads := 1, err := none,
            panicked := true }
        else
          match a.err with
          | some aerr =>
              { manager := r1.mgr, global := a.global, migrated := true, loads := 1,
                err := some aerr, panicked := false }
          | none =>
              let r2 := Load r1.mgr cfg2 cred2
              { manager := r2.mgr, global := a.global, migrated := true, loads := 2,
                err := r2.err, panicked := false }

/-! ## The client credential -/

/-- GlobalFlag: the two key flags GetBizClient reads. -/
structure GlobalFlag where
  PublicKey : String
  PrivateKey : String
  deriving DecidableEq, Repr

/-- The struct `auth.Credential` as GetBizClient fills it. -/
structure Credential where
  PublicKey : String
  PrivateKey : String
  deriving DecidableEq, Repr

/-- The struct `sdk.Config` as GetBizClient fills it; `Timeout` is in seconds
and is zero when `time.ParseDuration` fails. -/
structure SdkConfig where
  BaseUrl : String
  Timeout : Int
  Region : String
  ProjectId : String
  MaxRetries : Int
  deriving DecidableEq, Repr

/-- What GetBizClient returns: the two arguments of NewClient and the error. -/
structure BizClient where
  config : SdkConfig
  credential : Credential
  err : Option GoError
  deriving DecidableEq, Repr

/-- GetBizClient: `parseErr` is the outcome of `time.ParseDuration`; the
result is `none` when the dereference `*ac.MaxRetryTimes` of line 534 hits
nil. -/
def GetBizClient (global : GlobalFlag) (ac : AggConfig) (parseErr : Option GoError) :
    Option BizClient :=
  match ac.MaxRetryTimes with
  | none => none
  | some retries =>
      let err := parseErr.map (fun e =>
        Errorf ("parse timeout " ++ toString ac.Timeout ++ "s failed: " ++ e.msg))
      let clientConfig : SdkConfig :=
        { BaseUrl := ac.BaseURL
          Timeout := if parseErr = none then ac.Timeout else 0
          Region := ac.Region
          ProjectId := ac.ProjectID
          MaxRetries := retries }
      let authCredential : Credential :=
        if global.PublicKey ≠ "" ∧ global.PrivateKey ≠ "" then
          { PublicKey := global.PublicKey, PrivateKey := global.PrivateKey }
        else
          { PublicKey := ac.PublicKey, PrivateKey := ac.PrivateKey }
      some { config := clientConfig, credential := authCredential, err := err }

/-- The legacy record of the migration scenario. -/
def sampleLegacy : OldConfig :=
  { PublicKey := "pk", PrivateKey := "sk", Region := "cn-bj2", Zone := "cn-bj2-05",
    ProjectID := "org-x" }

/-! ## The invariant of reachable stores -/

/-- What every store reached by Append, UpdateAggConfig and DeleteByProfile
satisfies: keys are distinct, every profile sits under its own name, and a
profile whose Active flag is set sits under the tracked active name. -/
structure StoreInv (p : AggConfigManager) : Prop where
  nodup : NodupKeys p.configs
  keyed : ∀ kv ∈ p.configs, kv.2.Profile = kv.1
  tracked : ∀ kv ∈ p.configs, kv.2.Active = true → kv.1 = p.activeProfile

/-- The hypotheses under which a store survives Save followed by Load: keys
are distinct, every profile sits under its own name, every max-retry count is
present, and the two lists are the saved ones in some order. -/
structure SavedAs (p : AggConfigManager) (configs : List CLIConfig)
    (credentials : List CredentialConfig) : Prop where
  nodup : NodupKeys p.configs
  keyed : ∀ kv ∈ p.configs, kv.2.Profile = kv.1
  retry : ∀ kv ∈ p.configs, kv.2.MaxRetryTimes ≠ none
  settings : configs.Perm (SaveRecords p).1
  creds : credentials.Perm (SaveRecords p).2

/-! ## Lemmas on maps -/

theorem mapGet_mapSet {α : Type} (m : List (String × α)) (k k' : String) (v : α) :
    mapGet (mapSet m k v) k' = if k = k' then some v else mapGet m k' := by
  induction m with
  | nil => simp [mapSet, mapGet]
  | cons x m ih =>
    obtain ⟨a, b⟩ := x
    by_cases h : a = k
    · subst h
      by_cases h2 : a = k' <;> simp [mapSet, mapGet, h2]
    · by_cases h2 : a = k'
      · subst h2
        simp [mapSet, mapGet, h, Ne.symm h]
      · simp [mapSet, mapGet, h, h2, ih]

theorem mapGet_mapSet_self {α : Type} (m : List (String × α)) (k : String) (v : α) :
    mapGet (mapSet m k v) k = some v := by
  simp [mapGet_mapSet]

theorem mapGet_mapSet_ne {α : Type} (m : List (String × α)) {k k' : String} (v : α)
    (h : k ≠ k') : mapGet (mapSet m k v) k' = mapGet m k' := by
  simp [mapGet_mapSet, h]

theorem mapKeys_cons {α : Type} (x : String × α) (m : List (String × α)) :
    mapKeys (x :: m) = x.1 :: mapKeys m := rfl

theorem mapKeys_mapSet {α : Type} (m : List (String × α)) (k : String) (v : α) :
    mapKeys (mapSet m k v) = if k ∈ mapKeys m then mapKeys m else mapKeys m ++ [k] := by
  induction m with
  | nil => simp [mapSet, mapKeys]
  | cons x m ih =>
    obtain ⟨a, b⟩ := x
    by_cases h : a = k
    · subst h
      simp [mapSet, mapKeys_cons]
    · have h' : ¬ k = a := fun e => h e.symm
      by_cases hk : k ∈ mapKeys m
      · rw [if_pos hk] at ih
        simp [mapSet, mapKeys_cons, h, h', ih, hk]
      · rw [if_neg hk] at ih
        simp [mapSet, mapKeys_cons, h, h', ih, hk]

theorem nodupKeys_mapSet {α : Type} {m : List (String × α)} (h : NodupKeys m) (k : String)
    (v : α) : NodupKeys (mapSet m k v) := by
  unfold NodupKeys at *
  rw [mapKeys_mapSet]
  split
  · exact h
  · next hk =>
    rw [List.nodup_append]
    refine ⟨h, List.nodup_singleton k, ?_⟩
    intro a ha hb
    simp at hb
    exact hk (hb ▸ ha)

theorem mem_mapSet {α : Type} {m : List (String × α)} {k : String} {v : α} {x : String × α}
    (hx : x ∈ mapSet m k v) (hm : NodupKeys m) : x = (k, v) ∨ (x ∈ m ∧ x.1 ≠ k) := by
  induction m with
  | nil => left; simpa [mapSet] using hx
  | cons y m ih =>
    obtain ⟨a, b⟩ := y
    have hm' : a ∉ mapKeys m ∧ NodupKeys m := by
      simpa [NodupKeys, mapKeys_cons] using hm
    by_cases h : a = k
    · subst h
      simp only [mapSet, if_true, List.mem_cons] at hx
      rcases hx with hx | hx
      · exact Or.inl hx
      · refine Or.inr ⟨List.mem_cons_of_mem _ hx, ?_⟩
        intro e
        exact hm'.1 (e ▸ List.mem_map_of_mem Prod.fst hx)
    · simp only [mapSet, if_neg h, List.mem_cons] at hx
      rcases hx with hx | hx
      · subst hx
        exact Or.inr ⟨List.mem_cons_self _ _, h⟩
      · rcases ih hx hm'.2 with e | ⟨h1, h2⟩
        · exact Or.inl e
        · exact Or.inr ⟨List.mem_cons_of_mem _ h1, h2⟩

theorem mapGet_eq_none_iff {α : Type} (m : List (String × α)) (k : String) :
    mapGet m k = none ↔ k ∉ mapKeys m := by
  induction m with
  | nil => simp [mapGet, mapKeys]
  | cons x m ih =>
    obtain ⟨a, b⟩ := x
    by_cases h : a = k
    · simp [mapGet, mapKeys_cons, h]
    · have h' : ¬ k = a := fun e => h e.symm
      simp [mapGet, mapKeys_cons, h, h', ih]

theorem mem_of_mapGet {α : Type} {m : List (String × α)} {k : String} {v : α}
    (h : mapGet m k = some v) : (k, v) ∈ m := by
  induction m with
  | nil => simp [mapGet] at h
  | cons x m ih =>
    obtain ⟨a, b⟩ := x
    by_cases hk : a = k
    · subst hk
      simp [mapGet] at h
      simp [h]
    · simp only [mapGet, if_neg hk] at h
      exact List.mem_cons_of_mem _ (ih h)

theorem mapGet_of_mem {α : Type} {m : List (String × α)} {k : String} {v : α}
    (hm : NodupKeys m) (h : (k, v) ∈ m) : mapGet m k = some v := by
  induction m with
  | nil => simp at h
  | cons x m ih =>
    obtain ⟨a, b⟩ := x
    have hm' : a ∉ mapKeys m ∧ NodupKeys m := by
      simpa [NodupKeys, mapKeys_cons] using hm
    rcases List.mem_cons.mp h with e | h'
    · cases e
      simp [mapGet]
    · have hne : a ≠ k := by
        intro e
        exact hm'.1 (e ▸ List.mem_map_of_mem Prod.fst h')
      simp only [mapGet, if_neg hne]
      exact ih hm'.2 h'

theorem mapGet_mapDelete {α : Type} (m : List (String × α)) (k k' : String) :
    mapGet (mapDelete m k) k' = if k = k' then none else mapGet m k' := by
  induction m with
  | nil => simp [mapDelete, mapGet]
  | cons x m ih =>
    obtain ⟨a, b⟩ := x
    by_cases h : a = k
    · subst h
      by_cases h2 : a = k'
      · subst h2
        simpa [mapDelete] using ih
      · simp [mapDelete, mapGet, h2, ih]
    · by_cases h2 : a = k'
      · subst h2
        simp [mapDelete, mapGet, h, Ne.symm h]
      · simp [mapDelete, mapGet, h, h2, ih]

theorem mapDelete_sublist {α : Type} (m : List (String × α)) (k : String) :
    (mapDelete m k).Sublist m := by
  induction m with
  | nil => simp [mapDelete]
  | cons x m ih =>
    obtain ⟨a, b⟩ := x
    by_cases h : a = k
    · simp only [mapDelete, if_pos h]
      exact ih.trans (List.sublist_cons_self _ _)
    · simp only [mapDelete, if_neg h]
      exact ih.cons₂ _

theorem nodupKeys_mapDelete {α : Type} {m : List (String × α)} (h : NodupKeys m) (k : String) :
    NodupKeys (mapDelete m k) := by
  unfold NodupKeys mapKeys at *
  exact ((mapDelete_sublist m k).map Prod.fst).nodup h

/-! ## The invariant is preserved -/

theorem storeInv_empty : StoreInv AggConfigManager.empty :=
  ⟨by simp [AggConfigManager.empty, NodupKeys, mapKeys],
   by simp [AggConfigManager.empty], by simp [AggConfigManager.empty]⟩

theorem nodupKeys_demote {m : List (String × AggConfig)} (h : NodupKeys m) (k : String) :
    NodupKeys (demote m k) := by
  unfold demote
  split
  · exact nodupKeys_mapSet h _ _
  · exact h

theorem mem_demote {m : List (String × AggConfig)} {k : String} {x : String × AggConfig}
    (hm : NodupKeys m) (hx : x ∈ demote m k) :
    (x ∈ m ∧ x.1 ≠ k) ∨
      (x.1 = k ∧ x.2.Active = false ∧ ∃ ac, (k, ac) ∈ m ∧ x.2.Profile = ac.Profile) := by
  unfold demote at hx
  split at hx
  · next ac hac =>
    rcases mem_mapSet hx hm with e | h
    · subst e
      exact Or.inr ⟨rfl, rfl, ac, mem_of_mapGet hac, rfl⟩
    · exact Or.inl h
  · next hnone =>
    refine Or.inl ⟨hx, ?_⟩
    intro e
    have hk : k ∈ mapKeys m := e ▸ List.mem_map_of_mem Prod.fst hx
    exact (mapGet_eq_none_iff m k).mp hnone hk

theorem handOff_activeProfile (p : AggConfigManager) (c : AggConfig) (h : c.Active = true) :
    (handOff p c).activeProfile = c.Profile := by
  unfold handOff
  by_cases hne : c.Profile = p.activeProfile
  · simp [hne]
  · simp [h, hne]

theorem storeInv_handOff {p : AggConfigManager} (h : StoreInv p) (c : AggConfig) :
    StoreInv (handOff p c) := by
  unfold handOff
  split
  · refine ⟨nodupKeys_demote h.nodup _, ?_, ?_⟩
    · intro kv hkv
      rcases mem_demote h.nodup hkv with ⟨h1, _⟩ | ⟨h1, _, ac, h3, h4⟩
      · exact h.keyed kv h1
      · rw [h4, h1]
        exact h.keyed _ h3
    · intro kv hkv hact
      rcases mem_demote h.nodup hkv with ⟨h1, h2⟩ | ⟨_, h2, _⟩
      · exact absurd (h.tracked kv h1 hact) h2
      · rw [h2] at hact
        cases hact
  · exact h

theorem storeInv_Append {p : AggConfigManager} (h : StoreInv p) (c : AggConfig)
    (w : WriteOutcome) : StoreInv (Append p c w).mgr := by
  unfold Append
  split
  · exact h
  · have h1 := storeInv_handOff h c
    refine ⟨nodupKeys_mapSet h1.nodup _ _, ?_, ?_⟩
    · intro kv hkv
      rcases mem_mapSet hkv h1.nodup with e | ⟨h2, _⟩
      · subst e
        rfl
      · exact h1.keyed kv h2
    · intro kv hkv hact
      rcases mem_mapSet hkv h1.nodup with e | ⟨h2, _⟩
      · subst e
        exact (handOff_activeProfile p c hact).symm
      · exact h1.tracked kv h2 hact

theorem storeInv_UpdateAggConfig {p : AggConfigManager} (h : StoreInv p) (c : AggConfig)
    (w : WriteOutcome) : StoreInv (UpdateAggConfig p c w).mgr := by
  unfold UpdateAggConfig
  split
  · exact storeInv_Append h c w
  · exact storeInv_handOff h c

theorem DeleteByProfile_mgr (p : AggConfigManager) (profile : String) (w : WriteOutcome) :
    (DeleteByProfile p profile w).mgr = p ∨
      (DeleteByProfile p profile w).mgr = { p with configs := mapDelete p.configs profile } := by
  unfold DeleteByProfile
  split
  · exact Or.inl rfl
  · split
    · exact Or.inl rfl
    · right
      simp only [Save]
      split <;> rfl

theorem storeInv_DeleteByProfile {p : AggConfigManager} (h : StoreInv p) (profile : String)
    (w : WriteOutcome) : StoreInv (DeleteByProfile p profile w).mgr := by
  rcases DeleteByProfile_mgr p profile w with e | e
  · rw [e]
    exact h
  · rw [e]
    have hsub := (mapDelete_sublist p.configs profile).subset
    exact ⟨nodupKeys_mapDelete h.nodup _, fun kv hkv => h.keyed kv (hsub hkv),
      fun kv hkv => h.tracked kv (hsub hkv)⟩

theorem storeInv_apply {p : AggConfigManager} (h : StoreInv p) (c : Call) :
    StoreInv (c.apply p).mgr := by
  cases c with
  | append config w => exact storeInv_Append h config w
  | update config w => exact storeInv_UpdateAggConfig h config w
  | delete profile w => exact storeInv_DeleteByProfile h profile w

theorem storeInv_runFrom (calls : List Call) {p : AggConfigManager} (h : StoreInv p) :
    StoreInv (runFrom p calls) := by
  induction calls generalizing p with
  | nil => exact h
  | cons c calls ih => exact ih (storeInv_apply h c)

theorem storeInv_run (calls : List Call) : StoreInv (run calls) :=
  storeInv_runFrom calls storeInv_empty

theorem filter_active_length_le_one (m : List (String × AggConfig)) (t : String)
    (hn : NodupKeys m) (ht : ∀ kv ∈ m, kv.2.Active = true → kv.1 = t) :
    (m.filter (fun kv => kv.2.Active)).length ≤ 1 := by
  induction m with
  | nil => simp
  | cons x m ih =>
    have hn' : x.1 ∉ mapKeys m ∧ NodupKeys m := by
      simpa [NodupKeys, mapKeys_cons] using hn
    have ht' : ∀ kv ∈ m, kv.2.Active = true → kv.1 = t :=
      fun kv hkv => ht kv (List.mem_cons_of_mem _ hkv)
    by_cases hx : x.2.Active = true
    · have hxt : x.1 = t := ht x (List.mem_cons_self _ _) hx
      have hnil : m.filter (fun kv => kv.2.Active) = [] := by
        rw [List.filter_eq_nil_iff]
        intro kv hkv hact
        apply hn'.1
        rw [hxt, ← ht' kv hkv hact]
        exact List.mem_map_of_mem Prod.fst hkv
      simp [List.filter_cons, hx, hnil]
    · simp only [List.filter_cons, hx]
      exact ih hn'.2 ht'

/-! ## Settled claims -/

/-- C1: in every store reached from the empty store by any finite sequence of
Append, UpdateAggConfig and DeleteByProfile calls, whatever the outcome of the
writes of each call, at most one stored profile has its Active flag set. -/
theorem single_active_reachable (calls : List Call) : activeCount (run calls) ≤ 1 :=
  filter_active_length_le_one (run calls).configs (run calls).activeProfile
    (storeInv_run calls).nodup (storeInv_run calls).tracked

theorem handOff_spec (p : AggConfigManager) (c : AggConfig) (hact : c.Active = true)
    (hne : c.Profile ≠ p.activeProfile) :
    handOff p c = { activeProfile := c.Profile, configs := demote p.configs p.activeProfile } := by
  simp [handOff, hact, hne]

theorem mapGet_demote_self (m : List (String × AggConfig)) (k : String) (ac : AggConfig)
    (h : mapGet m k = some ac) : mapGet (demote m k) k = some { ac with Active := false } := by
  simp [demote, h, mapGet_mapSet_self]

theorem Append_handOff (p : AggConfigManager) (c : AggConfig) (w : WriteOutcome)
    (hact : c.Active = true) (hne : c.Profile ≠ p.activeProfile)
    (hnew : mapGet p.configs c.Profile = none) :
    (Append p c w).mgr.activeProfile = c.Profile ∧
      mapGet (Append p c w).mgr.configs c.Profile = some c ∧
      ∀ ac, mapGet p.configs p.activeProfile = some ac →
        mapGet (Append p c w).mgr.configs p.activeProfile = some { ac with Active := false } := by
  simp only [Append, hnew, handOff_spec p c hact hne, Save]
  refine ⟨trivial, mapGet_mapSet_self _ _ _, ?_⟩
  intro ac hac
  rw [mapGet_mapSet_ne _ _ hne]
  exact mapGet_demote_self _ _ _ hac

theorem UpdateAggConfig_handOff (p : AggConfigManager) (c : AggConfig) (w : WriteOutcome)
    (hact : c.Active = true) (hne : c.Profile ≠ p.activeProfile)
    (hold : mapGet p.configs c.Profile ≠ none) :
    (UpdateAggConfig p c w).mgr.activeProfile = c.Profile ∧
      ∀ ac, mapGet p.configs p.activeProfile = some ac →
        mapGet (UpdateAggConfig p c w).mgr.configs p.activeProfile =
          some { ac with Active := false } := by
  obtain ⟨x, hx⟩ := Option.ne_none_iff_exists'.mp hold
  simp only [UpdateAggConfig, hx, handOff_spec p c hact hne, Save]
  exact ⟨trivial, fun ac hac => mapGet_demote_self _ _ _ hac⟩

theorem Append_twice_active (a b : AggConfig) (wa wb : WriteOutcome) (ha : a.Active = true)
    (hb : b.Active = true) (hab : a.Profile ≠ b.Profile) :
    mapGet (run [.append a wa, .append b wb]).configs a.Profile = some { a with Active := false } ∧
      mapGet (run [.append a wa, .append b wb]).configs b.Profile = some b ∧
      (run [.append a wa, .append b wb]).activeProfile = b.Profile := by
  have h1 : (Append AggConfigManager.empty a wa).mgr =
      { activeProfile := a.Profile, configs := [(a.Profile, a)] } := by
    have e := handOff_activeProfile AggConfigManager.empty a ha
    by_cases h0 : a.Profile = ""
    · simp [Append, AggConfigManager.empty, mapGet, handOff, Save, mapSet, h0]
    · simp [Append, AggConfigManager.empty, mapGet, handOff, Save, mapSet, h0, ha, demote]
  have hnew : mapGet (Append AggConfigManager.empty a wa).mgr.configs b.Profile = none := by
    simp [h1, mapGet, hab]
  have hne : b.Profile ≠ (Append AggConfigManager.empty a wa).mgr.activeProfile := by
    simpa [h1] using Ne.symm hab
  have h2 := Append_handOff (Append AggConfigManager.empty a wa).mgr b wb hb hne hnew
  have hold : mapGet (Append AggConfigManager.empty a wa).mgr.configs
      (Append AggConfigManager.empty a wa).mgr.activeProfile = some a := by
    simp [h1, mapGet]
  have h3 := h2.2.2 a hold
  simp only [h1] at h2 h3
  simp only [run, runFrom, List.foldl, Call.apply, h1]
  exact ⟨h3, h2.2.1, h2.1⟩

/-- C2: for every store and every profile `c` with the Active flag set whose
name differs from the tracked active name, Append (when the name of `c` is not
stored) and UpdateAggConfig (when it is stored) leave the tracked active name
equal to the name of `c` and the profile tracked as active before the call, if
stored, with its Active flag cleared; and from the empty store, appending an
active `a` and then an active `b` of another name leaves `a` inactive and `b`
active. -/
theorem active_handoff (p : AggConfigManager) (c : AggConfig) (w : WriteOutcome)
    (hact : c.Active = true) (hne : c.Profile ≠ p.activeProfile) :
    (mapGet p.configs c.Profile = none →
      (Append p c w).mgr.activeProfile = c.Profile ∧
      ∀ ac, mapGet p.configs p.activeProfile = some ac →
        mapGet (Append p c w).mgr.configs p.activeProfile = some { ac with Active := false }) ∧
    (mapGet p.configs c.Profile ≠ none →
      (UpdateAggConfig p c w).mgr.activeProfile = c.Profile ∧
      ∀ ac, mapGet p.configs p.activeProfile = some ac →
        mapGet (UpdateAggConfig p c w).mgr.configs p.activeProfile =
          some { ac with Active := false }) ∧
    (∀ (a b : AggConfig) (wa wb : WriteOutcome), a.Active = true → b.Active = true →
      a.Profile ≠ b.Profile →
      mapGet (run [.append a wa, .append b wb]).configs a.Profile =
          some { a with Active := false } ∧
        mapGet (run [.append a wa, .append b wb]).configs b.Profile = some b ∧
        (run [.append a wa, .append b wb]).activeProfile = b.Profile) :=
  ⟨fun hnew => ⟨(Append_handOff p c w hact hne hnew).1, (Append_handOff p c w hact hne hnew).2.2⟩,
   fun hold => UpdateAggConfig_handOff p c w hact hne hold,
   fun a b wa wb ha hb hab => Append_twice_active a b wa wb ha hb hab⟩

/-- Witness for C2: the hand-off on a store holding an active "A", by Append
of an active "B", by UpdateAggConfig of an active "B" already stored, and in
the two-append scenario. -/
theorem active_handoff_witness :
    ((Append (run [.append (sampleProfile "A" true) .ok]) (sampleProfile "B" true) .ok).mgr.activeProfile
        = "B" ∧
      mapGet (Append (run [.append (sampleProfile "A" true) .ok])
        (sampleProfile "B" true) .ok).mgr.configs "A" = some (sampleProfile "A" false)) ∧
    ((UpdateAggConfig (run [.append (sampleProfile "A" true) .ok,
        .append (sampleProfile "B" false) .ok]) (sampleProfile "B" true) .ok).mgr.activeProfile = "B" ∧
      mapGet (UpdateAggConfig (run [.append (sampleProfile "A" true) .ok,
        .append (sampleProfile "B" false) .ok]) (sampleProfile "B" true) .ok).mgr.configs "A"
        = some (sampleProfile "A" false)) ∧
    (mapGet (run [.append (sampleProfile "A" true) .ok,
        .append (sampleProfile "B" true) .ok]).configs "A" = some (sampleProfile "A" false) ∧
      mapGet (run [.append (sampleProfile "A" true) .ok,
        .append (sampleProfile "B" true) .ok]).configs "B" = some (sampleProfile "B" true) ∧
      (run [.append (sampleProfile "A" true) .ok,
        .append (sampleProfile "B" true) .ok]).activeProfile = "B") :=
  ⟨⟨((active_handoff (run [.append (sampleProfile "A" true) .ok]) (sampleProfile "B" true) .ok
        rfl (by decide)).1 (by decide)).1,
    ((active_handoff (run [.append (sampleProfile "A" true) .ok]) (sampleProfile "B" true) .ok
        rfl (by decide)).1 (by decide)).2 (sampleProfile "A" true) (by decide)⟩,
   ⟨((active_handoff (run [.append (sampleProfile "A" true) .ok,
        .append (sampleProfile "B" false) .ok]) (sampleProfile "B" true) .ok
        rfl (by decide)).2.1 (by decide)).1,
    ((active_handoff (run [.append (sampleProfile "A" true) .ok,
        .append (sampleProfile "B" false) .ok]) (sampleProfile "B" true) .ok
        rfl (by decide)).2.1 (by decide)).2 (sampleProfile "A" true) (by decide)⟩,
   (active_handoff AggConfigManager.empty (sampleProfile "A" true) .ok rfl (by decide)).2.2
     (sampleProfile "A" true) (sampleProfile "B" true) .ok .ok rfl rfl (by decide)⟩

/-- C4: for every store and every profile `c` whose name is already a key,
Append returns the "exists already" error, issues no write and leaves the
profile map and the tracked active name as they were, whatever the Active flag
of `c` and the tracked active name are. -/
theorem append_duplicate_rejected (p : AggConfigManager) (c : AggConfig) (w : WriteOutcome)
    (h : c.Profile ∈ mapKeys p.configs) :
    (Append p c w).err = some (Errorf ("profile " ++ c.Profile ++ " exists already")) ∧
      (Append p c w).writes = [] ∧
      (Append p c w).mgr.configs = p.configs ∧
      (Append p c w).mgr.activeProfile = p.activeProfile := by
  have hs : mapGet p.configs c.Profile ≠ none := fun e =>
    (mapGet_eq_none_iff p.configs c.Profile).mp e h
  obtain ⟨x, hx⟩ := Option.ne_none_iff_exists'.mp hs
  simp [Append, hx]

/-- Witness for C4: appending an active "B" to a store that tracks "A" as
active and already holds "B". -/
theorem append_duplicate_rejected_witness :
    (Append (run [.append (sampleProfile "A" true) .ok, .append (sampleProfile "B" false) .ok])
        (sampleProfile "B" true) .ok).err = some (Errorf "profile B exists already") ∧
      (Append (run [.append (sampleProfile "A" true) .ok, .append (sampleProfile "B" false) .ok])
        (sampleProfile "B" true) .ok).writes = [] ∧
      (Append (run [.append (sampleProfile "A" true) .ok, .append (sampleProfile "B" false) .ok])
        (sampleProfile "B" true) .ok).mgr.configs =
        [("A", sampleProfile "A" true), ("B", sampleProfile "B" false)] ∧
      (Append (run [.append (sampleProfile "A" true) .ok, .append (sampleProfile "B" false) .ok])
        (sampleProfile "B" true) .ok).mgr.activeProfile = "A" :=
  append_duplicate_rejected
    (run [.append (sampleProfile "A" true) .ok, .append (sampleProfile "B" false) .ok])
    (sampleProfile "B" true) .ok (by decide)

/-- C10: for every store and every profile `c` whose name is not a key,
UpdateAggConfig returns the same store, the same writes and the same error as
Append. -/
theorem update_absent_is_append (p : AggConfigManager) (c : AggConfig) (w : WriteOutcome)
    (h : c.Profile ∉ mapKeys p.configs) : UpdateAggConfig p c w = Append p c w := by
  have hs : mapGet p.configs c.Profile = none := (mapGet_eq_none_iff p.configs c.Profile).mpr h
  simp [UpdateAggConfig, hs]

/-- Witness for C10: updating with an active "B" a store that holds only "A". -/
theorem update_absent_is_append_witness :
    UpdateAggConfig (run [.append (sampleProfile "A" true) .ok]) (sampleProfile "B" true) .ok =
      Append (run [.append (sampleProfile "A" true) .ok]) (sampleProfile "B" true) .ok :=
  update_absent_is_append (run [.append (sampleProfile "A" true) .ok]) (sampleProfile "B" true)
    .ok (by decide)

/-- Counterexample to C3 as stated: after Append of an active "A", Append of
an active "B" and UpdateAggConfig with a fresh active profile value named "A",
GetActiveAggConfig returns the stored "A", whose flag the second Append
cleared, and DeleteByProfile "A" succeeds and removes it. -/
theorem delete_tracked_active_counterexample :
    GetActiveAggConfig (run [.append (sampleProfile "A" true) .ok,
        .append (sampleProfile "B" true) .ok, .update (sampleProfile "A" true) .ok])
      = Except.ok (sampleProfile "A" false) ∧
    (DeleteByProfile (run [.append (sampleProfile "A" true) .ok,
        .append (sampleProfile "B" true) .ok, .update (sampleProfile "A" true) .ok])
      (sampleProfile "A" false).Profile .ok).err = none ∧
    (DeleteByProfile (run [.append (sampleProfile "A" true) .ok,
        .append (sampleProfile "B" true) .ok, .update (sampleProfile "A" true) .ok])
      (sampleProfile "A" false).Profile .ok).mgr.configs = [("B", sampleProfile "B" false)] ∧
    (run [.append (sampleProfile "A" true) .ok,
        .append (sampleProfile "B" true) .ok, .update (sampleProfile "A" true) .ok]).configs
      = [("A", sampleProfile "A" false), ("B", sampleProfile "B" false)] := by
  refine ⟨rfl, ?_, ?_, ?_⟩ <;> decide

/-- C3, amended: in every store reached from the empty store by Append,
UpdateAggConfig and DeleteByProfile calls in which GetActiveAggConfig returns a
profile whose Active flag is set, DeleteByProfile with the name of that
profile returns the "can't delete active profile" error, issues no write and
leaves the profile map and the tracked active name as they were. -/
theorem delete_flagged_active_rejected (calls : List Call) (w : WriteOutcome) (ac : AggConfig)
    (hget : GetActiveAggConfig (run calls) = Except.ok ac) (hact : ac.Active = true) :
    DeleteByProfile (run calls) ac.Profile w =
      { mgr := run calls, writes := [], err := some (Errorf "can't delete active profile") } := by
  have hinv := storeInv_run calls
  have hlook : mapGet (run calls).configs (run calls).activeProfile = some ac := by
    unfold GetActiveAggConfig at hget
    split at hget
    · next x hx =>
      cases hget
      exact hx
    · cases hget
  have hname : ac.Profile = (run calls).activeProfile := hinv.keyed _ (mem_of_mapGet hlook)
  rw [hname]
  simp [DeleteByProfile, hlook, hact]

/-- Witness for C3, amended: the store holding the single active profile "A". -/
theorem delete_flagged_active_rejected_witness :
    DeleteByProfile (run [.append (sampleProfile "A" true) .ok]) "A" .ok =
      { mgr := run [.append (sampleProfile "A" true) .ok], writes := [],
        err := some (Errorf "can't delete active profile") } :=
  delete_flagged_active_rejected [.append (sampleProfile "A" true) .ok] .ok
    (sampleProfile "A" true) rfl rfl

/-! ## Lemmas on Load -/

theorem mem_mapKeys_mapSet {α : Type} (m : List (String × α)) (k n : String) (v : α) :
    n ∈ mapKeys (mapSet m k v) ↔ n = k ∨ n ∈ mapKeys m := by
  rw [mapKeys_mapSet]
  by_cases hk : k ∈ mapKeys m
  · rw [if_pos hk]
    constructor
    · exact Or.inr
    · rintro (e | h)
      · exact e ▸ hk
      · exact h
  · rw [if_neg hk]
    simp [or_comm]

theorem mem_mapKeys_foldSet {β : Type} (key : β → String) (xs : List β)
    (m : List (String × β)) (n : String) :
    n ∈ mapKeys (xs.foldl (fun m c => mapSet m (key c) c) m) ↔
      n ∈ mapKeys m ∨ n ∈ xs.map key := by
  induction xs generalizing m with
  | nil => simp
  | cons x xs ih =>
    simp only [List.foldl_cons, List.map_cons, List.mem_cons]
    rw [ih, mem_mapKeys_mapSet]
    tauto

theorem nodupKeys_foldSet {β : Type} (key : β → String) (xs : List β)
    (m : List (String × β)) (h : NodupKeys m) :
    NodupKeys (xs.foldl (fun m c => mapSet m (key c) c) m) := by
  induction xs generalizing m with
  | nil => exact h
  | cons x xs ih => exact ih _ (nodupKeys_mapSet h _ _)

theorem mapGet_foldSet_of_not_mem {β : Type} (key : β → String) (xs : List β)
    (m : List (String × β)) (n : String) (h : n ∉ xs.map key) :
    mapGet (xs.foldl (fun m c => mapSet m (key c) c) m) n = mapGet m n := by
  induction xs generalizing m with
  | nil => rfl
  | cons x xs ih =>
    have h' : n ≠ key x ∧ n ∉ xs.map key := by simpa using h
    simp only [List.foldl_cons]
    rw [ih _ h'.2, mapGet_mapSet_ne _ _ (Ne.symm h'.1)]

theorem mapGet_foldSet_of_mem {β : Type} (key : β → String) (xs : List β)
    (m : List (String × β)) (c : β) (hn : (xs.map key).Nodup) (hc : c ∈ xs) :
    mapGet (xs.foldl (fun m c => mapSet m (key c) c) m) (key c) = some c := by
  induction xs generalizing m with
  | nil => simp at hc
  | cons x xs ih =>
    have hn' : key x ∉ xs.map key ∧ (xs.map key).Nodup := by simpa using hn
    simp only [List.foldl_cons]
    rcases List.mem_cons.mp hc with e | h
    · subst e
      rw [mapGet_foldSet_of_not_mem key xs _ _ hn'.1, mapGet_mapSet_self]
    · exact ih _ hn'.2 h

theorem mapGet_foldSet_some {β : Type} (key : β → String) (xs : List β)
    (m : List (String × β)) (n : String) (c : β)
    (h : mapGet (xs.foldl (fun m c => mapSet m (key c) c) m) n = some c) :
    (c ∈ xs ∧ key c = n) ∨ mapGet m n = some c := by
  induction xs generalizing m with
  | nil => exact Or.inr h
  | cons x xs ih =>
    simp only [List.foldl_cons] at h
    rcases ih _ h with ⟨h1, h2⟩ | h1
    · exact Or.inl ⟨List.mem_cons_of_mem _ h1, h2⟩
    · rw [mapGet_mapSet] at h1
      by_cases e : key x = n
      · rw [if_pos e] at h1
        cases h1
        exact Or.inl ⟨List.mem_cons_self _ _, e⟩
      · rw [if_neg e] at h1
        exact Or.inr h1

theorem mapGet_joinProfiles (credMap : List (String × CredentialConfig))
    (es : List (String × CLIConfig)) (store : List (String × AggConfig)) (n : String)
    (hes : NodupKeys es) :
    mapGet (joinProfiles credMap store es) n =
      match mapGet es n, mapGet credMap n with
      | some c, some cr => some (mergeProfile c cr)
      | _, _ => mapGet store n := by
  induction es generalizing store with
  | nil => simp [joinProfiles, mapGet]
  | cons x es ih =>
    obtain ⟨k, c⟩ := x
    have hes' : k ∉ mapKeys es ∧ NodupKeys es := by
      simpa [NodupKeys, mapKeys_cons] using hes
    have ih' := ih (joinStep credMap store (k, c)) hes'.2
    simp only [joinProfiles, List.foldl_cons] at ih' ⊢
    rw [ih']
    by_cases hk : k = n
    · subst hk
      have hnone : mapGet es k = none := (mapGet_eq_none_iff es k).mpr hes'.1
      simp only [hnone, mapGet, if_true, joinStep]
      cases hcr : mapGet credMap k with
      | none => simp
      | some cr => simp [mapGet_mapSet_self]
    · simp only [mapGet, if_neg hk, joinStep]
      have hst : mapGet (match mapGet credMap k with
          | none => store
          | some cred => mapSet store k (mergeProfile c cred)) n = mapGet store n := by
        cases mapGet credMap k with
        | none => rfl
        | some cr => exact mapGet_mapSet_ne _ _ hk
      rw [hst]

theorem nodupKeys_joinProfiles (credMap : List (String × CredentialConfig))
    (es : List (String × CLIConfig)) (store : List (String × AggConfig))
    (h : NodupKeys store) : NodupKeys (joinProfiles credMap store es) := by
  induction es generalizing store with
  | nil => exact h
  | cons x es ih =>
    simp only [joinProfiles, List.foldl_cons] at ih ⊢
    apply ih
    unfold joinStep
    split
    · exact h
    · exact nodupKeys_mapSet h _ _

theorem nodupKeys_nil {α : Type} : NodupKeys ([] : List (String × α)) := by
  simp [NodupKeys, mapKeys]

theorem nodupKeys_configMapOf (configs : List CLIConfig) : NodupKeys (configMapOf configs) :=
  nodupKeys_foldSet CLIConfig.Profile configs [] nodupKeys_nil

theorem mem_mapKeys_iff {α : Type} (m : List (String × α)) (n : String) :
    n ∈ mapKeys m ↔ ∃ v, mapGet m n = some v := by
  rw [← Option.ne_none_iff_exists', Ne, mapGet_eq_none_iff, not_not]

theorem loadJoin_mgr (p : AggConfigManager) (configs : List CLIConfig)
    (credentials : List CredentialConfig) :
    (loadJoin p configs credentials).mgr =
      { activeProfile := resolveActive p.activeProfile configs
        configs := joinProfiles (credMapOf credentials) p.configs (configMapOf configs) } := by
  unfold loadJoin
  simp only
  split
  · rfl
  · split <;> rfl

theorem mapGet_loadJoin_empty (configs : List CLIConfig) (credentials : List CredentialConfig)
    (n : String) :
    mapGet (loadJoin AggConfigManager.empty configs credentials).mgr.configs n =
      match mapGet (configMapOf configs) n, mapGet (credMapOf credentials) n with
      | some c, some cr => some (mergeProfile c cr)
      | _, _ => none := by
  rw [loadJoin_mgr]
  simp only [AggConfigManager.empty]
  rw [mapGet_joinProfiles _ _ _ _ (nodupKeys_configMapOf configs)]
  rfl

theorem mem_mapKeys_loadJoin_empty (configs : List CLIConfig)
    (credentials : List CredentialConfig) (n : String) :
    n ∈ mapKeys (loadJoin AggConfigManager.empty configs credentials).mgr.configs ↔
      n ∈ configs.map CLIConfig.Profile ∧ n ∈ credentials.map CredentialConfig.Profile := by
  have h1 := mem_mapKeys_foldSet CLIConfig.Profile configs [] n
  have h2 := mem_mapKeys_foldSet CredentialConfig.Profile credentials [] n
  have e1 : n ∈ mapKeys (configMapOf configs) ↔ n ∈ configs.map CLIConfig.Profile := by
    simpa [mapKeys, configMapOf] using h1
  have e2 : n ∈ mapKeys (credMapOf credentials) ↔
      n ∈ credentials.map CredentialConfig.Profile := by
    simpa [mapKeys, credMapOf] using h2
  rw [← e1, ← e2, mem_mapKeys_iff, mem_mapKeys_iff, mem_mapKeys_iff, mapGet_loadJoin_empty]
  cases mapGet (configMapOf configs) n <;> cases mapGet (credMapOf credentials) n <;> simp

theorem Load_empty_files :
    Load AggConfigManager.empty FileContent.empty FileContent.empty =
      { mgr := AggConfigManager.empty, err := none } := by
  decide

theorem Load_decoded (p : AggConfigManager) (configs : List CLIConfig)
    (credentials : List CredentialConfig) :
    Load p (FileContent.decoded configs) (FileContent.decoded credentials) =
      loadJoin p (configs.map backfillMaxRetry) credentials := rfl

theorem backfillMaxRetry_Profile (c : CLIConfig) : (backfillMaxRetry c).Profile = c.Profile := by
  unfold backfillMaxRetry
  split <;> rfl

theorem backfillMaxRetry_Active (c : CLIConfig) : (backfillMaxRetry c).Active = c.Active := by
  unfold backfillMaxRetry
  split <;> rfl

theorem backfillMaxRetry_fields (c : CLIConfig) :
    (backfillMaxRetry c).ProjectID = c.ProjectID ∧ (backfillMaxRetry c).Region = c.Region ∧
      (backfillMaxRetry c).Zone = c.Zone ∧ (backfillMaxRetry c).BaseURL = c.BaseURL ∧
      (backfillMaxRetry c).Timeout = c.Timeout := by
  unfold backfillMaxRetry
  split <;> simp

theorem backfillMaxRetry_MaxRetryTimes (c : CLIConfig) :
    (backfillMaxRetry c).MaxRetryTimes = some (c.MaxRetryTimes.getD DefaultMaxRetryTimes) := by
  unfold backfillMaxRetry
  split
  · next h => simp [h]
  · next n h => simp [h]

theorem map_Profile_backfill (configs : List CLIConfig) :
    (configs.map backfillMaxRetry).map CLIConfig.Profile = configs.map CLIConfig.Profile := by
  rw [List.map_map]
  exact List.map_congr_left (fun c _ => backfillMaxRetry_Profile c)

/-- C8: for a settings list and a credential list each with pairwise distinct
profile names, the join of Load (lines 256 to 290) on a fresh store stores
exactly the names occurring in both lists, each once, and binds each of them
to the project id, region, zone, base URL, timeout, active flag and max-retry
of its settings record and the public and private key of its credential
record; the same holds for the whole of Load over the two decoded lists, the
max-retry being the one parseCLIConfigs leaves in the record; and Load on two
empty lists or two empty files yields the store with zero profiles and no
error. -/
theorem load_join_exact (configs : List CLIConfig) (credentials : List CredentialConfig)
    (hc : (configs.map CLIConfig.Profile).Nodup)
    (hr : (credentials.map CredentialConfig.Profile).Nodup) :
    (∀ n, n ∈ mapKeys (loadJoin AggConfigManager.empty configs credentials).mgr.configs ↔
      n ∈ configs.map CLIConfig.Profile ∧ n ∈ credentials.map CredentialConfig.Profile) ∧
    NodupKeys (loadJoin AggConfigManager.empty configs credentials).mgr.configs ∧
    (∀ c ∈ configs, ∀ cr ∈ credentials, c.Profile = cr.Profile →
      mapGet (loadJoin AggConfigManager.empty configs credentials).mgr.configs c.Profile =
        some { Profile := c.Profile
               Active := c.Active
               ProjectID := c.ProjectID
               Region := c.Region
               Zone := c.Zone
               BaseURL := c.BaseURL
               Timeout := c.Timeout
               PublicKey := cr.PublicKey
               PrivateKey := cr.PrivateKey
               MaxRetryTimes := c.MaxRetryTimes }) ∧
    (∀ c ∈ configs, ∀ cr ∈ credentials, c.Profile = cr.Profile →
      mapGet (Load AggConfigManager.empty (FileContent.decoded configs)
          (FileContent.decoded credentials)).mgr.configs c.Profile =
        some { Profile := c.Profile
               Active := c.Active
               ProjectID := c.ProjectID
               Region := c.Region
               Zone := c.Zone
               BaseURL := c.BaseURL
               Timeout := c.Timeout
               PublicKey := cr.PublicKey
               PrivateKey := cr.PrivateKey
               MaxRetryTimes := some (c.MaxRetryTimes.getD DefaultMaxRetryTimes) }) ∧
    (∀ n, n ∈ mapKeys (Load AggConfigManager.empty (FileContent.decoded configs)
          (FileContent.decoded credentials)).mgr.configs ↔
      n ∈ configs.map CLIConfig.Profile ∧ n ∈ credentials.map CredentialConfig.Profile) ∧
    Load AggConfigManager.empty (FileContent.decoded []) (FileContent.decoded []) =
      { mgr := AggConfigManager.empty, err := none } ∧
    Load AggConfigManager.empty FileContent.empty FileContent.empty =
      { mgr := AggConfigManager.empty, err := none } := by
  refine ⟨mem_mapKeys_loadJoin_empty configs credentials, ?_, ?_, ?_, ?_, by decide,
    Load_empty_files⟩
  rotate_left 2
  · intro c hcm cr hcrm hname
    rw [Load_decoded, mapGet_loadJoin_empty]
    have h1 : mapGet (configMapOf (configs.map backfillMaxRetry)) (backfillMaxRetry c).Profile =
        some (backfillMaxRetry c) :=
      mapGet_foldSet_of_mem CLIConfig.Profile _ [] _
        (by rw [map_Profile_backfill]; exact hc) (List.mem_map_of_mem _ hcm)
    have h2 : mapGet (credMapOf credentials) c.Profile = some cr := by
      rw [hname]
      exact mapGet_foldSet_of_mem CredentialConfig.Profile credentials [] cr hr hcrm
    rw [backfillMaxRetry_Profile] at h1
    rw [h1, h2]
    simp only [mergeProfile, backfillMaxRetry_Profile, backfillMaxRetry_fields,
      backfillMaxRetry_Active, backfillMaxRetry_MaxRetryTimes]
  · intro n
    rw [Load_decoded, mem_mapKeys_loadJoin_empty, map_Profile_backfill]
  · rw [loadJoin_mgr]
    exact nodupKeys_joinProfiles _ _ _ nodupKeys_nil
  · intro c hcm cr hcrm hname
    rw [mapGet_loadJoin_empty]
    have h1 : mapGet (configMapOf configs) c.Profile = some c :=
      mapGet_foldSet_of_mem CLIConfig.Profile configs [] c hc hcm
    have h2 : mapGet (credMapOf credentials) c.Profile = some cr := by
      rw [hname]
      exact mapGet_foldSet_of_mem CredentialConfig.Profile credentials [] cr hr hcrm
    rw [h1, h2]
    rfl

/-- Witness for C8: settings "A" (active) and "B" against credentials "B" and
"C" store exactly "B". -/
theorem load_join_exact_witness :
    ([sampleSettings "A" true (some 5), sampleSettings "B" false none].map CLIConfig.Profile).Nodup ∧
    ([sampleCredential "B", sampleCredential "C"].map CredentialConfig.Profile).Nodup ∧
    ("B" ∈ mapKeys (loadJoin AggConfigManager.empty
        [sampleSettings "A" true (some 5), sampleSettings "B" false none]
        [sampleCredential "B", sampleCredential "C"]).mgr.configs ↔
      "B" ∈ [sampleSettings "A" true (some 5), sampleSettings "B" false none].map CLIConfig.Profile ∧
      "B" ∈ [sampleCredential "B", sampleCredential "C"].map CredentialConfig.Profile) ∧
    mapKeys (loadJoin AggConfigManager.empty
        [sampleSettings "A" true (some 5), sampleSettings "B" false none]
        [sampleCredential "B", sampleCredential "C"]).mgr.configs = ["B"] :=
  ⟨by decide, by decide,
   (load_join_exact [sampleSettings "A" true (some 5), sampleSettings "B" false none]
      [sampleCredential "B", sampleCredential "C"] (by decide) (by decide)).1 "B",
   by decide⟩

theorem resolveActive_backfill (init : String) (configs : List CLIConfig) :
    resolveActive init (configs.map backfillMaxRetry) = resolveActive init configs := by
  induction configs generalizing init with
  | nil => rfl
  | cons c cs ih =>
    simp only [resolveActive, List.map_cons, List.foldl_cons, backfillMaxRetry_Active,
      backfillMaxRetry_Profile] at ih ⊢
    exact ih _

theorem resolveActive_of_no_active (init : String) (configs : List CLIConfig)
    (h : ∀ c ∈ configs, c.Active = false) : resolveActive init configs = init := by
  induction configs generalizing init with
  | nil => rfl
  | cons c cs ih =>
    have hc : c.Active = false := h c (List.mem_cons_self _ _)
    simp only [resolveActive, List.foldl_cons, hc] at ih ⊢
    exact ih init (fun x hx => h x (List.mem_cons_of_mem _ hx))

theorem resolveActive_of_active (init : String) (configs : List CLIConfig)
    (h : ∃ c ∈ configs, c.Active = true) :
    ∃ c ∈ configs, c.Active = true ∧ resolveActive init configs = c.Profile := by
  induction configs generalizing init with
  | nil => simp at h
  | cons c cs ih =>
    by_cases hrest : ∃ x ∈ cs, x.Active = true
    · obtain ⟨x, hx, hxa, hxr⟩ := ih (if c.Active = true then c.Profile else init) hrest
      exact ⟨x, List.mem_cons_of_mem _ hx, hxa, by simpa [resolveActive] using hxr⟩
    · have hno : ∀ x ∈ cs, x.Active = false := by
        intro x hx
        cases hxa : x.Active
        · rfl
        · exact absurd ⟨x, hx, hxa⟩ hrest
      have hc : c.Active = true := by
        obtain ⟨x, hx, hxa⟩ := h
        rcases List.mem_cons.mp hx with e | hx'
        · exact e ▸ hxa
        · rw [hno x hx'] at hxa
          cases hxa
      refine ⟨c, List.mem_cons_self _ _, hc, ?_⟩
      have := resolveActive_of_no_active (if c.Active = true then c.Profile else init) cs hno
      simpa [resolveActive, hc] using this

theorem configMapOf_length_pos (configs : List CLIConfig) (h : configs ≠ []) :
    (configMapOf configs).length > 0 := by
  obtain ⟨c, hc⟩ := List.exists_mem_of_ne_nil configs h
  have hk : c.Profile ∈ mapKeys (configMapOf configs) :=
    (mem_mapKeys_foldSet CLIConfig.Profile configs [] c.Profile).mpr
      (Or.inr (List.mem_map_of_mem _ hc))
  exact List.length_pos_of_mem (List.mem_map.mp hk).choose_spec.1

theorem loadJoin_err (p : AggConfigManager) (configs : List CLIConfig)
    (credentials : List CredentialConfig) :
    (loadJoin p configs credentials).err =
      if resolveActive p.activeProfile configs = "" ∧ (configMapOf configs).length > 0 then
        some (Errorf "no active config found, run 'ucloud config list' to check")
      else if resolveActive p.activeProfile configs ≠ "" ∧
          mapGet (credMapOf credentials) (resolveActive p.activeProfile configs) = none then
        some (Errorf ("profile " ++ resolveActive p.activeProfile configs ++
          "'s credential don't exist, run 'ucloud config list' to check"))
      else none := by
  unfold loadJoin
  simp only
  split
  · rfl
  · split <;> rfl

theorem mapGet_credMapOf_none (credentials : List CredentialConfig) (n : String)
    (h : n ∉ credentials.map CredentialConfig.Profile) :
    mapGet (credMapOf credentials) n = none := by
  rw [credMapOf, mapGet_foldSet_of_not_mem CredentialConfig.Profile credentials [] n h]
  rfl

/-- C7: for every credential list and every non-empty settings list in which
no record has the active flag, Load on a fresh store returns the "no active
config found" error. -/
theorem load_no_active_fails (configs : List CLIConfig) (credentials : List CredentialConfig)
    (hne : configs ≠ []) (hnone : ∀ c ∈ configs, c.Active = false) :
    (Load AggConfigManager.empty (FileContent.decoded configs)
        (FileContent.decoded credentials)).err =
      some (Errorf "no active config found, run 'ucloud config list' to check") := by
  rw [Load_decoded, loadJoin_err, resolveActive_backfill,
    resolveActive_of_no_active _ configs hnone]
  have hlen := configMapOf_length_pos (configs.map backfillMaxRetry) (by simpa using hne)
  simp [AggConfigManager.empty, hlen]

/-- Witness for C7: one inactive settings record "A" with its credential. -/
theorem load_no_active_fails_witness :
    (Load AggConfigManager.empty (FileContent.decoded [sampleSettings "A" false (some 3)])
        (FileContent.decoded [sampleCredential "A"])).err =
      some (Errorf "no active config found, run 'ucloud config list' to check") :=
  load_no_active_fails [sampleSettings "A" false (some 3)] [sampleCredential "A"]
    (by decide) (by decide)

/-- C6: for every settings list holding a record with the active flag and
every credential list without a record named as the profile Load resolves as
active, Load on a fresh store returns an error, which is the "credential don't
exist" error whenever that name is not empty; so it does for settings "A"
(active) and "B" (inactive) against the single credential "B". -/
theorem load_active_without_credential_fails (configs : List CLIConfig)
    (credentials : List CredentialConfig) (hact : ∃ c ∈ configs, c.Active = true)
    (hmiss : resolveActive "" configs ∉ credentials.map CredentialConfig.Profile) :
    (Load AggConfigManager.empty (FileContent.decoded configs)
        (FileContent.decoded credentials)).err ≠ none ∧
    (resolveActive "" configs ≠ "" →
      (Load AggConfigManager.empty (FileContent.decoded configs)
        (FileContent.decoded credentials)).err =
        some (Errorf ("profile " ++ resolveActive "" configs ++
          "'s credential don't exist, run 'ucloud config list' to check"))) ∧
    (Load AggConfigManager.empty
        (FileContent.decoded [sampleSettings "A" true (some 3), sampleSettings "B" false (some 3)])
        (FileContent.decoded [sampleCredential "B"])).err =
      some (Errorf "profile A's credential don't exist, run 'ucloud config list' to check") := by
  have hne : configs ≠ [] := by
    rintro rfl
    simp at hact
  have hlen := configMapOf_length_pos (configs.map backfillMaxRetry) (by simpa using hne)
  have hcred := mapGet_credMapOf_none credentials _ hmiss
  rw [Load_decoded, loadJoin_err, resolveActive_backfill]
  simp only [AggConfigManager.empty]
  refine ⟨?_, ?_, by decide⟩
  · by_cases h0 : resolveActive "" configs = ""
    · simp [h0, hlen]
    · simp [h0, hcred]
  · intro h0
    simp [h0, hcred]

/-- Witness for C6: settings "A" (active) and "B" (inactive) against the
single credential "B". -/
theorem load_active_without_credential_fails_witness :
    (Load AggConfigManager.empty
        (FileContent.decoded [sampleSettings "A" true (some 3), sampleSettings "B" false (some 3)])
        (FileContent.decoded [sampleCredential "B"])).err ≠ none :=
  (load_active_without_credential_fails
    [sampleSettings "A" true (some 3), sampleSettings "B" false (some 3)]
    [sampleCredential "B"] ⟨sampleSettings "A" true (some 3), by decide, rfl⟩ (by decide)).1

/-! ## Save followed by Load -/

theorem mergeProfile_copy (ac : AggConfig) :
    mergeProfile ac.copyToCLIConfig ac.copyToCredentialConfig = ac := rfl

theorem backfillMaxRetry_of_present (c : CLIConfig) (h : c.MaxRetryTimes ≠ none) :
    backfillMaxRetry c = c := by
  unfold backfillMaxRetry
  split
  · next h0 => exact absurd h0 h
  · rfl

theorem mapGet_loadJoin_empty_some (configs : List CLIConfig)
    (credentials : List CredentialConfig) (n : String) (ac : AggConfig)
    (h : mapGet (loadJoin AggConfigManager.empty configs credentials).mgr.configs n = some ac) :
    ∃ c ∈ configs, ∃ cr ∈ credentials,
      c.Profile = n ∧ cr.Profile = n ∧ ac = mergeProfile c cr := by
  rw [mapGet_loadJoin_empty] at h
  cases h1 : mapGet (configMapOf configs) n with
  | none => simp [h1] at h
  | some c =>
    cases h2 : mapGet (credMapOf credentials) n with
    | none => simp [h1, h2] at h
    | some cr =>
      simp only [h1, h2, Option.some.injEq] at h
      rcases mapGet_foldSet_some CLIConfig.Profile configs [] n c h1 with ⟨hc, hcn⟩ | hc
      · rcases mapGet_foldSet_some CredentialConfig.Profile credentials [] n cr h2 with
          ⟨hr, hrn⟩ | hr
        · exact ⟨c, hc, cr, hr, hcn, hrn, h.symm⟩
        · simp [mapGet] at hr
      · simp [mapGet] at hc

theorem SavedAs.mem_settings {p : AggConfigManager} {configs : List CLIConfig}
    {credentials : List CredentialConfig} (h : SavedAs p configs credentials) (c : CLIConfig) :
    c ∈ configs ↔ ∃ kv ∈ p.configs, kv.2.copyToCLIConfig = c := by
  rw [h.settings.mem_iff]
  simp [SaveRecords]

theorem SavedAs.mem_creds {p : AggConfigManager} {configs : List CLIConfig}
    {credentials : List CredentialConfig} (h : SavedAs p configs credentials)
    (c : CredentialConfig) :
    c ∈ credentials ↔ ∃ kv ∈ p.configs, kv.2.copyToCredentialConfig = c := by
  rw [h.creds.mem_iff]
  simp [SaveRecords]

theorem SavedAs.settings_names {p : AggConfigManager} {configs : List CLIConfig}
    {credentials : List CredentialConfig} (h : SavedAs p configs credentials) :
    (configs.map CLIConfig.Profile).Perm (mapKeys p.configs) := by
  have e : (SaveRecords p).1.map CLIConfig.Profile = mapKeys p.configs := by
    simp only [SaveRecords, List.map_map, mapKeys]
    exact List.map_congr_left (fun kv hkv => h.keyed kv hkv)
  rw [← e]
  exact h.settings.map _

theorem SavedAs.creds_names {p : AggConfigManager} {configs : List CLIConfig}
    {credentials : List CredentialConfig} (h : SavedAs p configs credentials) :
    (credentials.map CredentialConfig.Profile).Perm (mapKeys p.configs) := by
  have e : (SaveRecords p).2.map CredentialConfig.Profile = mapKeys p.configs := by
    simp only [SaveRecords, List.map_map, mapKeys]
    exact List.map_congr_left (fun kv hkv => h.keyed kv hkv)
  rw [← e]
  exact h.creds.map _

theorem SavedAs.backfill {p : AggConfigManager} {configs : List CLIConfig}
    {credentials : List CredentialConfig} (h : SavedAs p configs credentials) :
    configs.map backfillMaxRetry = configs := by
  have e : ∀ c ∈ configs, backfillMaxRetry c = id c := by
    intro c hc
    obtain ⟨kv, hkv, rfl⟩ := (h.mem_settings c).mp hc
    exact backfillMaxRetry_of_present _ (h.retry kv hkv)
  rw [List.map_congr_left e, List.map_id]

theorem SavedAs.load_eq {p : AggConfigManager} {configs : List CLIConfig}
    {credentials : List CredentialConfig} (h : SavedAs p configs credentials) :
    Load AggConfigManager.empty (FileContent.decoded configs) (FileContent.decoded credentials) =
      loadJoin AggConfigManager.empty configs credentials := by
  rw [Load_decoded, h.backfill]

theorem SavedAs.mapGet_load {p : AggConfigManager} {configs : List CLIConfig}
    {credentials : List CredentialConfig} (h : SavedAs p configs credentials) (n : String) :
    mapGet (Load AggConfigManager.empty (FileContent.decoded configs)
      (FileContent.decoded credentials)).mgr.configs n = mapGet p.configs n := by
  rw [h.load_eq, mapGet_loadJoin_empty]
  cases hn : mapGet p.configs n with
  | none =>
    have hk : n ∉ mapKeys p.configs := (mapGet_eq_none_iff _ _).mp hn
    have hk' : n ∉ configs.map CLIConfig.Profile := fun hm => hk (h.settings_names.mem_iff.mp hm)
    rw [configMapOf, mapGet_foldSet_of_not_mem CLIConfig.Profile configs [] n hk']
    rfl
  | some ac =>
    have hmem := mem_of_mapGet hn
    have hname : ac.Profile = n := h.keyed _ hmem
    have h1 : mapGet (configMapOf configs) ac.copyToCLIConfig.Profile =
        some ac.copyToCLIConfig :=
      mapGet_foldSet_of_mem CLIConfig.Profile configs [] _
        (h.settings_names.nodup_iff.mpr h.nodup) ((h.mem_settings _).mpr ⟨_, hmem, rfl⟩)
    have h2 : mapGet (credMapOf credentials) ac.copyToCredentialConfig.Profile =
        some ac.copyToCredentialConfig :=
      mapGet_foldSet_of_mem CredentialConfig.Profile credentials [] _
        (h.creds_names.nodup_iff.mpr h.nodup) ((h.mem_creds _).mpr ⟨_, hmem, rfl⟩)
    have e1 : ac.copyToCLIConfig.Profile = n := hname
    have e2 : ac.copyToCredentialConfig.Profile = n := hname
    rw [e1] at h1
    rw [e2] at h2
    rw [h1, h2]
    rfl

theorem SavedAs.load_empty {p : AggConfigManager} {configs : List CLIConfig}
    {credentials : List CredentialConfig} (h : SavedAs p configs credentials)
    (he : p.configs = []) :
    Load AggConfigManager.empty (FileContent.decoded configs) (FileContent.decoded credentials) =
      { mgr := AggConfigManager.empty, err := none } := by
  have e1 : configs = [] := by
    have := h.settings
    simpa [SaveRecords, he] using this
  have e2 : credentials = [] := by
    have := h.creds
    simpa [SaveRecords, he] using this
  subst e1 e2
  decide

theorem SavedAs.load_active {p : AggConfigManager} {configs : List CLIConfig}
    {credentials : List CredentialConfig} (h : SavedAs p configs credentials) (t : String)
    (ht : t ≠ "") (hex : ∃ kv ∈ p.configs, kv.2.Active = true)
    (hall : ∀ kv ∈ p.configs, kv.2.Active = true → kv.1 = t) :
    (Load AggConfigManager.empty (FileContent.decoded configs)
        (FileContent.decoded credentials)).err = none ∧
    (Load AggConfigManager.empty (FileContent.decoded configs)
        (FileContent.decoded credentials)).mgr.activeProfile = t := by
  have hact : ∃ c ∈ configs, c.Active = true := by
    obtain ⟨kv, hkv, ha⟩ := hex
    exact ⟨kv.2.copyToCLIConfig, (h.mem_settings _).mpr ⟨kv, hkv, rfl⟩, ha⟩
  obtain ⟨c, hc, hca, hres⟩ := resolveActive_of_active "" configs hact
  obtain ⟨kv, hkv, rfl⟩ := (h.mem_settings c).mp hc
  have hkt : kv.1 = t := hall kv hkv hca
  have hres' : resolveActive "" configs = t := by
    rw [hres]
    exact (h.keyed kv hkv).trans hkt
  have htk : t ∈ mapKeys p.configs := hkt ▸ List.mem_map_of_mem Prod.fst hkv
  have hcred : mapGet (credMapOf credentials) t ≠ none := by
    rw [Ne, mapGet_eq_none_iff, not_not]
    have := (mem_mapKeys_foldSet CredentialConfig.Profile credentials [] t).mpr
      (Or.inr (h.creds_names.mem_iff.mpr htk))
    simpa [credMapOf] using this
  rw [h.load_eq, loadJoin_err, loadJoin_mgr]
  simp only [AggConfigManager.empty, hres']
  simp [ht, hcred]

theorem perm_of_mapGet_eq {α : Type} {m₁ m₂ : List (String × α)} (h₁ : NodupKeys m₁)
    (h₂ : NodupKeys m₂) (h : ∀ n, mapGet m₁ n = mapGet m₂ n) : m₁.Perm m₂ := by
  have n₁ : m₁.Nodup := List.Nodup.of_map Prod.fst h₁
  have n₂ : m₂.Nodup := List.Nodup.of_map Prod.fst h₂
  rw [List.perm_ext_iff_of_nodup n₁ n₂]
  intro kv
  obtain ⟨k, v⟩ := kv
  constructor
  · intro hm
    exact mem_of_mapGet ((h k).symm.trans (mapGet_of_mem h₁ hm))
  · intro hm
    exact mem_of_mapGet ((h k).trans (mapGet_of_mem h₂ hm))

/-- Counterexample to C5 as stated: the store reached by one Append of an
inactive profile "A" is saved as one settings record and one credential
record, and Load on a fresh store over these two lists returns the "no active
config found" error; so does Load for the store reached by one Append of an
active profile with the empty name; and the store reached by one Append of an
active "A" without max-retry count is reloaded with max-retry 3. -/
theorem save_load_counterexample :
    ((SaveRecords (run [.append (sampleProfile "A" false) .ok])).1 =
        [sampleSettings "A" false (some 3)] ∧
      (SaveRecords (run [.append (sampleProfile "A" false) .ok])).2 = [sampleCredential "A"] ∧
      (Load AggConfigManager.empty
          (FileContent.decoded (SaveRecords (run [.append (sampleProfile "A" false) .ok])).1)
          (FileContent.decoded (SaveRecords (run [.append (sampleProfile "A" false) .ok])).2)).err =
        some (Errorf "no active config found, run 'ucloud config list' to check")) ∧
    (Load AggConfigManager.empty
        (FileContent.decoded (SaveRecords (run [.append (sampleProfile "" true) .ok])).1)
        (FileContent.decoded (SaveRecords (run [.append (sampleProfile "" true) .ok])).2)).err =
      some (Errorf "no active config found, run 'ucloud config list' to check") ∧
    (mapGet (run [.append { sampleProfile "A" true with MaxRetryTimes := none } .ok]).configs "A" =
        some { sampleProfile "A" true with MaxRetryTimes := none } ∧
      mapGet (Load AggConfigManager.empty
          (FileContent.decoded (SaveRecords
            (run [.append { sampleProfile "A" true with MaxRetryTimes := none } .ok])).1)
          (FileContent.decoded (SaveRecords
            (run [.append { sampleProfile "A" true with MaxRetryTimes := none } .ok])).2)).mgr.configs
          "A" = some (sampleProfile "A" true)) := by
  refine ⟨⟨?_, ?_, ?_⟩, ?_, ?_, ?_⟩ <;> decide

/-- C5, amended: for every store reached from the empty store by Append,
UpdateAggConfig and DeleteByProfile calls in which every stored max-retry
count is present and which either holds no profile or holds a profile with the
Active flag set and a non-empty name, Load on a fresh store over the two lists
Save builds, taken in any order, returns no error and yields the same profiles
under the same names, hence the same Active flags; when the store is not empty
the loaded store tracks the same active name. -/
theorem save_load_roundtrip (calls : List Call) (configs : List CLIConfig)
    (credentials : List CredentialConfig)
    (hretry : ∀ kv ∈ (run calls).configs, kv.2.MaxRetryTimes ≠ none)
    (hactive : (run calls).configs = [] ∨
      ∃ kv ∈ (run calls).configs, kv.2.Active = true ∧ kv.2.Profile ≠ "")
    (hc : configs.Perm (SaveRecords (run calls)).1)
    (hr : credentials.Perm (SaveRecords (run calls)).2) :
    (Load AggConfigManager.empty (FileContent.decoded configs)
        (FileContent.decoded credentials)).err = none ∧
    (∀ n, mapGet (Load AggConfigManager.empty (FileContent.decoded configs)
        (FileContent.decoded credentials)).mgr.configs n = mapGet (run calls).configs n) ∧
    (Load AggConfigManager.empty (FileContent.decoded configs)
        (FileContent.decoded credentials)).mgr.configs.Perm (run calls).configs ∧
    ((run calls).configs ≠ [] →
      (Load AggConfigManager.empty (FileContent.decoded configs)
        (FileContent.decoded credentials)).mgr.activeProfile = (run calls).activeProfile) := by
  have hinv := storeInv_run calls
  have hs : SavedAs (run calls) configs credentials :=
    ⟨hinv.nodup, hinv.keyed, hretry, hc, hr⟩
  have hnd : NodupKeys (Load AggConfigManager.empty (FileContent.decoded configs)
      (FileContent.decoded credentials)).mgr.configs := by
    rw [hs.load_eq, loadJoin_mgr]
    exact nodupKeys_joinProfiles _ _ _ nodupKeys_nil
  refine ⟨?_, hs.mapGet_load, perm_of_mapGet_eq hnd hinv.nodup hs.mapGet_load, ?_⟩
  · rcases hactive with he | ⟨kv, hkv, ha, hne⟩
    · rw [hs.load_empty he]
    · have hkt : kv.1 = (run calls).activeProfile := hinv.tracked kv hkv ha
      have ht : (run calls).activeProfile ≠ "" := by
        rw [← hkt, ← hinv.keyed kv hkv]
        exact hne
      exact (hs.load_active _ ht ⟨kv, hkv, ha⟩ hinv.tracked).1
  · intro hne0
    rcases hactive with he | ⟨kv, hkv, ha, hne⟩
    · exact absurd he hne0
    · have hkt : kv.1 = (run calls).activeProfile := hinv.tracked kv hkv ha
      have ht : (run calls).activeProfile ≠ "" := by
        rw [← hkt, ← hinv.keyed kv hkv]
        exact hne
      exact (hs.load_active _ ht ⟨kv, hkv, ha⟩ hinv.tracked).2

/-- Witness for C5, amended: the store holding an inactive "A" and an active
"B", reloaded from the saved lists in reverse order. -/
theorem save_load_roundtrip_witness :
    (Load AggConfigManager.empty
        (FileContent.decoded [sampleSettings "B" true (some 3), sampleSettings "A" false (some 3)])
        (FileContent.decoded [sampleCredential "B", sampleCredential "A"])).err = none ∧
    (Load AggConfigManager.empty
        (FileContent.decoded [sampleSettings "B" true (some 3), sampleSettings "A" false (some 3)])
        (FileContent.decoded [sampleCredential "B", sampleCredential "A"])).mgr.configs.Perm
      (run [.append (sampleProfile "A" true) .ok, .append (sampleProfile "B" true) .ok]).configs :=
  ⟨(save_load_roundtrip
      [.append (sampleProfile "A" true) .ok, .append (sampleProfile "B" true) .ok]
      [sampleSettings "B" true (some 3), sampleSettings "A" false (some 3)]
      [sampleCredential "B", sampleCredential "A"]
      (by decide) (Or.inr ⟨("B", sampleProfile "B" true), by decide, rfl, by decide⟩)
      (List.Perm.swap _ _ []) (List.Perm.swap _ _ [])).1,
   (save_load_roundtrip
      [.append (sampleProfile "A" true) .ok, .append (sampleProfile "B" true) .ok]
      [sampleSettings "B" true (some 3), sampleSettings "A" false (some 3)]
      [sampleCredential "B", sampleCredential "A"]
      (by decide) (Or.inr ⟨("B", sampleProfile "B" true), by decide, rfl, by decide⟩)
      (List.Perm.swap _ _ []) (List.Perm.swap _ _ [])).2.2.1⟩

/-- C9: on every decoded settings list parseCLIConfigs succeeds and returns,
record by record, the record with max-retry set to 3 when it was absent and
the record unchanged when it was present; and every profile Load places in a
fresh store has a present max-retry count, which is the one of the settings
record it was built from, or 3 when that record had none. -/
theorem max_retry_backfilled (configs : List CLIConfig) :
    (∃ out, parseCLIConfigs (FileContent.decoded configs) = Except.ok out ∧
      List.Forall₂ (fun c o =>
        (c.MaxRetryTimes = none → o = { c with MaxRetryTimes := some 3 }) ∧
        (c.MaxRetryTimes ≠ none → o = c)) configs out) ∧
    (∀ (configFile : FileContent CLIConfig) (credFile : FileContent CredentialConfig)
      (n : String) (ac : AggConfig),
      mapGet (Load AggConfigManager.empty configFile credFile).mgr.configs n = some ac →
        ac.MaxRetryTimes ≠ none) ∧
    (∀ (credentials : List CredentialConfig) (n : String) (ac : AggConfig),
      mapGet (Load AggConfigManager.empty (FileContent.decoded configs)
        (FileContent.decoded credentials)).mgr.configs n = some ac →
      ∃ c ∈ configs, ∃ cr ∈ credentials, c.Profile = n ∧ cr.Profile = n ∧
        ac = mergeProfile (backfillMaxRetry c) cr ∧
        ac.MaxRetryTimes = some (c.MaxRetryTimes.getD 3) ∧
        (c.MaxRetryTimes = none → ac.MaxRetryTimes = some 3)) := by
  refine ⟨⟨configs.map backfillMaxRetry, rfl, ?_⟩, ?_, ?_⟩
  · rw [List.forall₂_map_right_iff]
    apply List.forall₂_same.mpr
    intro c _
    constructor
    · intro h
      simp [backfillMaxRetry, h, DefaultMaxRetryTimes]
    · exact backfillMaxRetry_of_present c
  · intro configFile credFile n ac h
    have key : ∀ (cs : List CLIConfig) (crs : List CredentialConfig),
        (∀ c ∈ cs, c.MaxRetryTimes ≠ none) →
        mapGet (loadJoin AggConfigManager.empty cs crs).mgr.configs n = some ac →
        ac.MaxRetryTimes ≠ none := by
      intro cs crs hcs hget
      obtain ⟨c, hc, cr, _, _, _, rfl⟩ := mapGet_loadJoin_empty_some cs crs n ac hget
      exact hcs c hc
    have hb : ∀ cs : List CLIConfig, ∀ c ∈ cs.map backfillMaxRetry, c.MaxRetryTimes ≠ none := by
      intro cs c hc
      obtain ⟨c0, _, rfl⟩ := List.mem_map.mp hc
      rw [backfillMaxRetry_MaxRetryTimes]
      simp
    cases configFile with
    | readError e => simp [Load, parseCLIConfigs, AggConfigManager.empty, mapGet] at h
    | malformed e => simp [Load, parseCLIConfigs, AggConfigManager.empty, mapGet] at h
    | empty =>
      cases credFile with
      | readError e =>
        simp [Load, parseCLIConfigs, parseCredentials, AggConfigManager.empty, mapGet] at h
      | malformed e =>
        simp [Load, parseCLIConfigs, parseCredentials, AggConfigManager.empty, mapGet] at h
      | empty => exact key [] [] (by simp) h
      | decoded crs => exact key [] crs (by simp) h
    | decoded cs =>
      cases credFile with
      | readError e =>
        simp [Load, parseCLIConfigs, parseCredentials, AggConfigManager.empty, mapGet] at h
      | malformed e =>
        simp [Load, parseCLIConfigs, parseCredentials, AggConfigManager.empty, mapGet] at h
      | empty => exact key (cs.map backfillMaxRetry) [] (hb cs) h
      | decoded crs => exact key (cs.map backfillMaxRetry) crs (hb cs) h
  · intro credentials n ac h
    rw [Load_decoded] at h
    obtain ⟨c', hc', cr, hcr, hn, hrn, hac⟩ := mapGet_loadJoin_empty_some _ _ n ac h
    obtain ⟨c, hc, rfl⟩ := List.mem_map.mp hc'
    have hm : ac.MaxRetryTimes = some (c.MaxRetryTimes.getD 3) := by
      rw [hac]
      exact backfillMaxRetry_MaxRetryTimes c
    refine ⟨c, hc, cr, hcr, (backfillMaxRetry_Profile c) ▸ hn, hrn, hac, hm, ?_⟩
    intro h0
    rw [hm, h0]
    rfl

/-- Witness for C9: a settings record "A" decoded without max-retry is stored
with max-retry 3. -/
theorem max_retry_backfilled_witness :
    mapGet (Load AggConfigManager.empty (FileContent.decoded [sampleSettings "A" true none])
        (FileContent.decoded [sampleCredential "A"])).mgr.configs "A" =
      some (sampleProfile "A" true) ∧
    (sampleProfile "A" true).MaxRetryTimes ≠ none :=
  ⟨by decide,
   (max_retry_backfilled [sampleSettings "A" true none]).2.1
     (FileContent.decoded [sampleSettings "A" true none])
     (FileContent.decoded [sampleCredential "A"]) "A" (sampleProfile "A" true) (by decide)⟩

/-! ## Deletion, persistence and its failure -/

theorem SaveError_eq_none_iff (w : WriteOutcome) :
    SaveError w = none ↔ w.aerr = none ∧ w.berr = none := by
  unfold SaveError
  cases w.aerr <;> cases w.berr <;> simp

theorem DeleteByProfile_removes (p : AggConfigManager) (profile : String) (w : WriteOutcome)
    (ac : AggConfig) (hget : mapGet p.configs profile = some ac) (hact : ac.Active = false) :
    (DeleteByProfile p profile w).mgr =
        { activeProfile := p.activeProfile, configs := mapDelete p.configs profile } ∧
      (DeleteByProfile p profile w).writes ≠ [] ∧
      ((DeleteByProfile p profile w).err = none ↔ SaveError w = none) := by
  unfold DeleteByProfile
  simp only [hget, hact, Save]
  cases h : SaveError w <;> simp

/-- C11: for every store and every name, DeleteByProfile returns an error,
issues no write and leaves the store as it was when the name is not stored
(the "is not exist" error) or when the profile stored under it has its Active
flag set (the "can't delete active profile" error); otherwise the name is no
longer stored afterwards, every other name is bound as before, the tracked
active name is unchanged, and the call returns no error exactly when both
writes of the persist step succeed. -/
theorem delete_by_profile_spec (p : AggConfigManager) (profile : String) (w : WriteOutcome) :
    (mapGet p.configs profile = none →
      DeleteByProfile p profile w =
        { mgr := p, writes := [],
          err := some (Errorf ("profile: " ++ profile ++ " is not exist")) }) ∧
    (∀ ac, mapGet p.configs profile = some ac → ac.Active = true →
      DeleteByProfile p profile w =
        { mgr := p, writes := [], err := some (Errorf "can't delete active profile") }) ∧
    (∀ ac, mapGet p.configs profile = some ac → ac.Active = false →
      mapGet (DeleteByProfile p profile w).mgr.configs profile = none ∧
      (∀ n, n ≠ profile →
        mapGet (DeleteByProfile p profile w).mgr.configs n = mapGet p.configs n) ∧
      (DeleteByProfile p profile w).mgr.activeProfile = p.activeProfile ∧
      ((DeleteByProfile p profile w).err = none ↔ w.aerr = none ∧ w.berr = none)) := by
  refine ⟨?_, ?_, ?_⟩
  · intro h
    simp [DeleteByProfile, h]
  · intro ac h ha
    simp [DeleteByProfile, h, ha]
  · intro ac h ha
    obtain ⟨hm, _, he⟩ := DeleteByProfile_removes p profile w ac h ha
    rw [hm, he, SaveError_eq_none_iff]
    refine ⟨?_, ?_, rfl, Iff.rfl⟩
    · simp [mapGet_mapDelete]
    · intro n hn
      simp [mapGet_mapDelete, Ne.symm hn]

/-- Witness for C11: on the store holding an inactive "A" and an active "B",
deleting "C" and "B" is refused and deleting "A" removes it and keeps "B". -/
theorem delete_by_profile_spec_witness :
    DeleteByProfile (run [.append (sampleProfile "A" true) .ok,
        .append (sampleProfile "B" true) .ok]) "C" .ok =
      { mgr := run [.append (sampleProfile "A" true) .ok, .append (sampleProfile "B" true) .ok],
        writes := [], err := some (Errorf "profile: C is not exist") } ∧
    DeleteByProfile (run [.append (sampleProfile "A" true) .ok,
        .append (sampleProfile "B" true) .ok]) "B" .ok =
      { mgr := run [.append (sampleProfile "A" true) .ok, .append (sampleProfile "B" true) .ok],
        writes := [], err := some (Errorf "can't delete active profile") } ∧
    mapGet (DeleteByProfile (run [.append (sampleProfile "A" true) .ok,
        .append (sampleProfile "B" true) .ok]) "A" .ok).mgr.configs "A" = none ∧
    mapGet (DeleteByProfile (run [.append (sampleProfile "A" true) .ok,
        .append (sampleProfile "B" true) .ok]) "A" .ok).mgr.configs "B" =
      some (sampleProfile "B" true) :=
  ⟨(delete_by_profile_spec (run [.append (sampleProfile "A" true) .ok,
      .append (sampleProfile "B" true) .ok]) "C" .ok).1 (by decide),
   (delete_by_profile_spec (run [.append (sampleProfile "A" true) .ok,
      .append (sampleProfile "B" true) .ok]) "B" .ok).2.1 (sampleProfile "B" true)
      (by decide) rfl,
   ((delete_by_profile_spec (run [.append (sampleProfile "A" true) .ok,
      .append (sampleProfile "B" true) .ok]) "A" .ok).2.2 (sampleProfile "A" false)
      (by decide) rfl).1,
   (((delete_by_profile_spec (run [.append (sampleProfile "A" true) .ok,
      .append (sampleProfile "B" true) .ok]) "A" .ok).2.2 (sampleProfile "A" false)
      (by decide) rfl).2.1 "B" (by decide)).trans (by decide)⟩

/-- C12: for every store and every pair of outcomes of the two writes, Save
issues the settings write and then the credential write whatever the outcome
of the first, returns no error exactly when both writes succeed, and when
both fail returns one error whose message holds both write errors. -/
theorem save_attempts_both (p : AggConfigManager) (w : WriteOutcome) :
    (Save p w).writes =
      [WriteRequest.configFile (p.configs.map (fun kv => kv.2.copyToCLIConfig)),
       WriteRequest.credFile (p.configs.map (fun kv => kv.2.copyToCredentialConfig))] ∧
    (Save p w).mgr = p ∧
    ((Save p w).err = none ↔ w.aerr = none ∧ w.berr = none) ∧
    (∀ a b, w.aerr = some a → w.berr = some b →
      (Save p w).err = some (Errorf
        ("save cli config failed: " ++ a.msg ++ " | save credentail failed: " ++ b.msg))) ∧
    (∀ a, w.aerr = some a → w.berr = none →
      (Save p w).err = some (Errorf ("save cli config failed: " ++ a.msg))) ∧
    (∀ b, w.aerr = none → w.berr = some b →
      (Save p w).err = some (Errorf ("save cerdentail failed: " ++ b.msg))) := by
  refine ⟨rfl, rfl, SaveError_eq_none_iff w, ?_, ?_, ?_⟩
  · intro a b ha hb
    simp [Save, SaveError, ha, hb]
  · intro a ha hb
    simp [Save, SaveError, ha, hb]
  · intro b ha hb
    simp [Save, SaveError, ha, hb]

/-- Witness for C12: both writes fail, the settings write with "disk full" and
the credential write with "read-only". -/
theorem save_attempts_both_witness :
    (Save AggConfigManager.empty
        { aerr := some (Errorf "disk full"), berr := some (Errorf "read-only") }).err =
      some (Errorf "save cli config failed: disk full | save credentail failed: read-only") :=
  (save_attempts_both AggConfigManager.empty
    { aerr := some (Errorf "disk full"), berr := some (Errorf "read-only") }).2.2.2.1
    (Errorf "disk full") (Errorf "read-only") rfl rfl

theorem Append_mgr_indep (p : AggConfigManager) (c : AggConfig) (w w' : WriteOutcome) :
    (Append p c w).mgr = (Append p c w').mgr ∧ (Append p c w).writes = (Append p c w').writes := by
  unfold Append
  split <;> exact ⟨rfl, rfl⟩

theorem Append_err_of_persist (p : AggConfigManager) (c : AggConfig) (w : WriteOutcome)
    (hr : (Append p c w).writes ≠ []) : (Append p c w).err = SaveError w := by
  unfold Append at hr ⊢
  split at hr
  · exact absurd rfl hr
  · next h =>
    simp [h, Save]

theorem UpdateAggConfig_mgr_indep (p : AggConfigManager) (c : AggConfig) (w w' : WriteOutcome) :
    (UpdateAggConfig p c w).mgr = (UpdateAggConfig p c w').mgr ∧
      (UpdateAggConfig p c w).writes = (UpdateAggConfig p c w').writes := by
  unfold UpdateAggConfig
  split
  · exact Append_mgr_indep p c w w'
  · exact ⟨rfl, rfl⟩

theorem UpdateAggConfig_err_of_persist (p : AggConfigManager) (c : AggConfig) (w : WriteOutcome)
    (hr : (UpdateAggConfig p c w).writes ≠ []) : (UpdateAggConfig p c w).err = SaveError w := by
  unfold UpdateAggConfig at hr ⊢
  split
  · next h =>
    simp only [h] at hr
    exact Append_err_of_persist p c w hr
  · rfl

theorem DeleteByProfile_mgr_indep (p : AggConfigManager) (profile : String)
    (w w' : WriteOutcome) :
    (DeleteByProfile p profile w).mgr = (DeleteByProfile p profile w').mgr ∧
      (DeleteByProfile p profile w).writes = (DeleteByProfile p profile w').writes := by
  cases hget : mapGet p.configs profile with
  | none => simp [DeleteByProfile, hget]
  | some ac =>
    cases hact : ac.Active with
    | true => simp [DeleteByProfile, hget, hact]
    | false =>
      simp only [DeleteByProfile, hget, hact, Save]
      cases SaveError w <;> cases SaveError w' <;> simp

theorem DeleteByProfile_err_of_persist (p : AggConfigManager) (profile : String)
    (w : WriteOutcome) (hw : SaveError w ≠ none) : (DeleteByProfile p profile w).err ≠ none := by
  cases hget : mapGet p.configs profile with
  | none => simp [DeleteByProfile, hget]
  | some ac =>
    cases hact : ac.Active with
    | true => simp [DeleteByProfile, hget, hact]
    | false =>
      obtain ⟨e, he⟩ := Option.ne_none_iff_exists'.mp hw
      simp [DeleteByProfile, hget, hact, Save, he]

/-- C13: for every store and every Append, UpdateAggConfig or DeleteByProfile
call that reaches its persist step (it issues writes), when a write fails the
call returns an error and the store after the call is the store the same call
leaves when both writes succeed. -/
theorem persist_failure_keeps_mutation (p : AggConfigManager) (c : AggConfig)
    (profile : String) (w : WriteOutcome) (hw : w.aerr ≠ none ∨ w.berr ≠ none) :
    ((Append p c w).writes ≠ [] →
      (Append p c w).err ≠ none ∧ (Append p c w).mgr = (Append p c WriteOutcome.ok).mgr) ∧
    ((UpdateAggConfig p c w).writes ≠ [] →
      (UpdateAggConfig p c w).err ≠ none ∧
      (UpdateAggConfig p c w).mgr = (UpdateAggConfig p c WriteOutcome.ok).mgr) ∧
    ((DeleteByProfile p profile w).writes ≠ [] →
      (DeleteByProfile p profile w).err ≠ none ∧
      (DeleteByProfile p profile w).mgr = (DeleteByProfile p profile WriteOutcome.ok).mgr) := by
  have hs : SaveError w ≠ none := by
    rw [Ne, SaveError_eq_none_iff]
    tauto
  refine ⟨?_, ?_, ?_⟩
  · intro hr
    refine ⟨?_, (Append_mgr_indep p c w _).1⟩
    rw [Append_err_of_persist p c w hr]
    exact hs
  · intro hr
    refine ⟨?_, (UpdateAggConfig_mgr_indep p c w _).1⟩
    rw [UpdateAggConfig_err_of_persist p c w hr]
    exact hs
  · intro _
    exact ⟨DeleteByProfile_err_of_persist p profile w hs,
      (DeleteByProfile_mgr_indep p profile w _).1⟩

/-- Witness for C13: with a failing credential write, appending an active "B"
to the store holding an active "A" still inserts "B" and demotes "A". -/
theorem persist_failure_keeps_mutation_witness :
    (Append (run [.append (sampleProfile "A" true) .ok]) (sampleProfile "B" true)
        { aerr := none, berr := some (Errorf "read-only") }).err ≠ none ∧
    (Append (run [.append (sampleProfile "A" true) .ok]) (sampleProfile "B" true)
        { aerr := none, berr := some (Errorf "read-only") }).mgr =
      (Append (run [.append (sampleProfile "A" true) .ok]) (sampleProfile "B" true)
        WriteOutcome.ok).mgr :=
  (persist_failure_keeps_mutation (run [.append (sampleProfile "A" true) .ok])
    (sampleProfile "B" true) "A" { aerr := none, berr := some (Errorf "read-only") }
    (Or.inr (by decide))).1 (by decide)

/-! ## How many profiles are active -/

/-- Counterexample to C14 as stated: one Append of an inactive profile "A" to
the empty store leaves a store that holds one profile and no active one. -/
theorem nonempty_without_active_counterexample :
    (run [.append (sampleProfile "A" false) .ok]).configs = [("A", sampleProfile "A" false)] ∧
    activeCount (run [.append (sampleProfile "A" false) .ok]) = 0 := by
  constructor <;> decide

theorem filter_active_pos_of_mem (m : List (String × AggConfig)) (kv : String × AggConfig)
    (hm : kv ∈ m) (ha : kv.2.Active = true) :
    0 < (m.filter (fun kv => kv.2.Active)).length :=
  List.length_pos_of_mem (List.mem_filter.mpr ⟨hm, ha⟩)

/-- C14, amended: in every store reached from the empty store by Append,
UpdateAggConfig and DeleteByProfile calls, the number of stored profiles with
the Active flag set is zero or one, and it is one exactly when
GetActiveAggConfig returns a profile whose Active flag is set. -/
theorem active_count_reachable (calls : List Call) :
    (activeCount (run calls) = 0 ∨ activeCount (run calls) = 1) ∧
    (activeCount (run calls) = 1 ↔
      ∃ ac, GetActiveAggConfig (run calls) = Except.ok ac ∧ ac.Active = true) := by
  have hinv := storeInv_run calls
  have hle : activeCount (run calls) ≤ 1 :=
    filter_active_length_le_one _ _ hinv.nodup hinv.tracked
  refine ⟨by omega, ?_, ?_⟩
  · intro h1
    have hpos : 0 < ((run calls).configs.filter (fun kv => kv.2.Active)).length := by
      unfold activeCount at h1
      omega
    obtain ⟨kv, hkv⟩ := List.exists_mem_of_length_pos hpos
    obtain ⟨hmem, hact⟩ := List.mem_filter.mp hkv
    have hk : kv.1 = (run calls).activeProfile := hinv.tracked kv hmem hact
    have hget : mapGet (run calls).configs (run calls).activeProfile = some kv.2 := by
      rw [← hk]
      exact mapGet_of_mem hinv.nodup hmem
    exact ⟨kv.2, by simp [GetActiveAggConfig, hget], hact⟩
  · rintro ⟨ac, hget, hact⟩
    have hlook : mapGet (run calls).configs (run calls).activeProfile = some ac := by
      unfold GetActiveAggConfig at hget
      split at hget
      · next x hx =>
        cases hget
        exact hx
      · cases hget
    have hpos := filter_active_pos_of_mem _ _ (mem_of_mapGet hlook) hact
    unfold activeCount at hle ⊢
    omega

/-- Counterexample to C15 as stated: over the settings "A" and "B", both
active, and their two credentials, Load on a fresh store returns no error and
stores two profiles with the Active flag set. -/
theorem load_two_active_counterexample :
    (Load AggConfigManager.empty
        (FileContent.decoded [sampleSettings "A" true (some 3), sampleSettings "B" true (some 3)])
        (FileContent.decoded [sampleCredential "A", sampleCredential "B"])).err = none ∧
    (Load AggConfigManager.empty
        (FileContent.decoded [sampleSettings "A" true (some 3), sampleSettings "B" true (some 3)])
        (FileContent.decoded [sampleCredential "A", sampleCredential "B"])).mgr.configs =
      [("A", sampleProfile "A" true), ("B", sampleProfile "B" true)] ∧
    activeCount (Load AggConfigManager.empty
        (FileContent.decoded [sampleSettings "A" true (some 3), sampleSettings "B" true (some 3)])
        (FileContent.decoded [sampleCredential "A", sampleCredential "B"])).mgr = 2 := by
  refine ⟨?_, ?_, ?_⟩ <;> decide

theorem eq_of_mem_of_length_le_one {α : Type} {l : List α} (h : l.length ≤ 1) {a b : α}
    (ha : a ∈ l) (hb : b ∈ l) : a = b := by
  match l, h with
  | [], _ => simp at ha
  | [x], _ =>
    simp at ha hb
    rw [ha, hb]

/-- C15, amended: for every settings list in which at most one record has the
active flag and every credential list, at most one profile in the store that
Load fills from a fresh store has its Active flag set, whether Load returns an
error or not. -/
theorem load_single_active (configs : List CLIConfig) (credentials : List CredentialConfig)
    (hone : (configs.filter (fun c => c.Active)).length ≤ 1) :
    activeCount (Load AggConfigManager.empty (FileContent.decoded configs)
      (FileContent.decoded credentials)).mgr ≤ 1 := by
  have hnd : NodupKeys (Load AggConfigManager.empty (FileContent.decoded configs)
      (FileContent.decoded credentials)).mgr.configs := by
    rw [Load_decoded, loadJoin_mgr]
    exact nodupKeys_joinProfiles _ _ _ nodupKeys_nil
  apply filter_active_length_le_one _ (resolveActive "" configs) hnd
  intro kv hkv hact
  have hget := mapGet_of_mem hnd hkv
  rw [Load_decoded] at hget
  obtain ⟨c', hc', cr, _, hn, _, hac⟩ := mapGet_loadJoin_empty_some _ _ _ _ hget
  obtain ⟨c, hc, rfl⟩ := List.mem_map.mp hc'
  have hca : c.Active = true := by
    rw [hac] at hact
    simpa [mergeProfile, backfillMaxRetry_Active] using hact
  obtain ⟨d, hd, hda, hres⟩ := resolveActive_of_active "" configs ⟨c, hc, hca⟩
  have hcd : c = d :=
    eq_of_mem_of_length_le_one hone (List.mem_filter.mpr ⟨hc, hca⟩)
      (List.mem_filter.mpr ⟨hd, hda⟩)
  rw [hres, ← hcd, ← hn, backfillMaxRetry_Profile]

/-- Witness for C15, amended: settings "A" (active) and "B" (inactive) with
their two credentials. -/
theorem load_single_active_witness :
    activeCount (Load AggConfigManager.empty
        (FileContent.decoded [sampleSettings "A" true (some 3), sampleSettings "B" false (some 3)])
        (FileContent.decoded [sampleCredential "A", sampleCredential "B"])).mgr ≤ 1 :=
  load_single_active [sampleSettings "A" true (some 3), sampleSettings "B" false (some 3)]
    [sampleCredential "A", sampleCredential "B"] (by decide)

/-! ## Legacy migration -/

theorem Append_stored (p : AggConfigManager) (c : AggConfig) (w : WriteOutcome) :
    mapGet (Append p c w).mgr.configs c.Profile ≠ none := by
  unfold Append
  split
  · next x hx =>
    simp [hx]
  · simp [Save, mapGet_mapSet_self]

theorem Append_new (p : AggConfigManager) (c : AggConfig) (w : WriteOutcome)
    (h : mapGet p.configs c.Profile = none) :
    mapGet (Append p c w).mgr.configs c.Profile = some c ∧
      (c.Active = true → (Append p c w).mgr.activeProfile = c.Profile) ∧
      (Append p c w).err = SaveError w := by
  simp only [Append, h, Save]
  exact ⟨mapGet_mapSet_self _ _ _, fun ha => handOff_activeProfile p c ha, trivial⟩

theorem adaptOldConfig_built (g : GlobalStore) (oc : OldConfig) (renameErr : Option GoError)
    (w : WriteOutcome) :
    (adaptOldConfig g (LegacyFile.content oc) renameErr w).built =
      some { Profile := "default"
             Active := true
             ProjectID := oc.ProjectID
             Region := oc.Region
             Zone := oc.Zone
             BaseURL := "https://api.ucloud.cn/"
             Timeout := 15
             PublicKey := oc.PublicKey
             PrivateKey := oc.PrivateKey
             MaxRetryTimes := some 3 } := by
  cases renameErr <;> rfl

theorem adaptOldConfig_assigned (p : AggConfigManager) (oc : OldConfig) (w : WriteOutcome) :
    adaptOldConfig (GlobalStore.assigned p) (LegacyFile.content oc) none w =
      { global := GlobalStore.assigned (Append p
          { Profile := DefaultProfile
            ProjectID := oc.ProjectID
            Region := oc.Region
            Zone := oc.Zone
            BaseURL := DefaultBaseURL
            Timeout := DefaultTimeoutSec
            Active := true
            PrivateKey := oc.PrivateKey
            PublicKey := oc.PublicKey
            MaxRetryTimes := some DefaultMaxRetryTimes } w).mgr
        renamed := true
        built := some
          { Profile := DefaultProfile
            ProjectID := oc.ProjectID
            Region := oc.Region
            Zone := oc.Zone
            BaseURL := DefaultBaseURL
            Timeout := DefaultTimeoutSec
            Active := true
            PrivateKey := oc.PrivateKey
            PublicKey := oc.PublicKey
            MaxRetryTimes := some DefaultMaxRetryTimes }
        writes := (Append p
          { Profile := DefaultProfile
            ProjectID := oc.ProjectID
            Region := oc.Region
            Zone := oc.Zone
            BaseURL := DefaultBaseURL
            Timeout := DefaultTimeoutSec
            Active := true
            PrivateKey := oc.PrivateKey
            PublicKey := oc.PublicKey
            MaxRetryTimes := some DefaultMaxRetryTimes } w).writes
        err := (Append p
          { Profile := DefaultProfile
            ProjectID := oc.ProjectID
            Region := oc.Region
            Zone := oc.Zone
            BaseURL := DefaultBaseURL
            Timeout := DefaultTimeoutSec
            Active := true
            PrivateKey := oc.PrivateKey
            PublicKey := oc.PublicKey
            MaxRetryTimes := some DefaultMaxRetryTimes } w).err
        panicked := false } := rfl

theorem adaptOldConfig_nil_map (g : GlobalStore) (f : LegacyFile) (w : WriteOutcome)
    (hg : g.configs = none) (hf : ∀ e, f ≠ LegacyFile.unreadable e) :
    (adaptOldConfig g f none w).panicked = true ∧
      (adaptOldConfig g f none w).renamed = true ∧
      (adaptOldConfig g f none w).global.configs = none ∧
      (adaptOldConfig g f none w).writes = [] ∧
      (adaptOldConfig g f none w).err = none := by
  cases f with
  | unreadable e => exact absurd rfl (hf e)
  | absent => simp [adaptOldConfig, OldConfig.Load, AppendGlobal, hg]
  | content oc => simp [adaptOldConfig, OldConfig.Load, AppendGlobal, hg]

/-- C16: for every legacy record, every state of the package variable and
every outcome of the rename and the writes, the profile adaptOldConfig builds
is named "default", has the Active flag set, base URL
"https://api.ucloud.cn/", timeout 15 and max-retry 3, and carries the project
id, region, zone, public key and private key of the legacy record; for the
legacy record of the scenario it is the default active profile with keys "pk"
and "sk".  When the rename succeeds that profile is handed to Append on the
package variable: on an allocated map without "default" it is stored under
"default", which becomes the tracked active name; on the nil map the package
variable starts with, Append panics after the rename and nothing is stored or
written. -/
theorem legacy_profile_built (g : GlobalStore) (oc : OldConfig) (renameErr : Option GoError)
    (w : WriteOutcome) :
    (adaptOldConfig g (LegacyFile.content oc) renameErr w).built =
      some { Profile := "default"
             Active := true
             ProjectID := oc.ProjectID
             Region := oc.Region
             Zone := oc.Zone
             BaseURL := "https://api.ucloud.cn/"
             Timeout := 15
             PublicKey := oc.PublicKey
             PrivateKey := oc.PrivateKey
             MaxRetryTimes := some 3 } ∧
    (adaptOldConfig g (LegacyFile.content sampleLegacy) renameErr w).built =
      some { Profile := "default"
             Active := true
             ProjectID := "org-x"
             Region := "cn-bj2"
             Zone := "cn-bj2-05"
             BaseURL := "https://api.ucloud.cn/"
             Timeout := 15
             PublicKey := "pk"
             PrivateKey := "sk"
             MaxRetryTimes := some 3 } ∧
    (∀ p : AggConfigManager, "default" ∉ mapKeys p.configs →
      ∃ q : AggConfigManager,
        (adaptOldConfig (GlobalStore.assigned p) (LegacyFile.content oc) none w).global =
          GlobalStore.assigned q ∧
        (adaptOldConfig (GlobalStore.assigned p) (LegacyFile.content oc) none w).panicked = false ∧
        q.activeProfile = "default" ∧
        mapGet q.configs "default" =
          some { Profile := "default"
                 Active := true
                 ProjectID := oc.ProjectID
                 Region := oc.Region
                 Zone := oc.Zone
                 BaseURL := "https://api.ucloud.cn/"
                 Timeout := 15
                 PublicKey := oc.PublicKey
                 PrivateKey := oc.PrivateKey
                 MaxRetryTimes := some 3 }) ∧
    (g.configs = none →
      (adaptOldConfig g (LegacyFile.content oc) none w).panicked = true ∧
      (adaptOldConfig g (LegacyFile.content oc) none w).renamed = true ∧
      (adaptOldConfig g (LegacyFile.content oc) none w).global.configs = none ∧
      (adaptOldConfig g (LegacyFile.content oc) none w).writes = [] ∧
      (adaptOldConfig g (LegacyFile.content oc) none w).err = none) := by
  refine ⟨adaptOldConfig_built g oc renameErr w, adaptOldConfig_built g sampleLegacy renameErr w,
    ?_, ?_⟩
  · intro p hp
    have hnone : mapGet p.configs "default" = none := (mapGet_eq_none_iff _ _).mpr hp
    have hnew := Append_new p
      { Profile := DefaultProfile
        ProjectID := oc.ProjectID
        Region := oc.Region
        Zone := oc.Zone
        BaseURL := DefaultBaseURL
        Timeout := DefaultTimeoutSec
        Active := true
        PrivateKey := oc.PrivateKey
        PublicKey := oc.PublicKey
        MaxRetryTimes := some DefaultMaxRetryTimes } w hnone
    rw [adaptOldConfig_assigned]
    exact ⟨_, rfl, rfl, hnew.2.1 rfl, hnew.1⟩
  · intro hg
    exact adaptOldConfig_nil_map g _ w hg (fun e h => by cases h)

/-- Witness for C16: the legacy record of the scenario, on the package variable
holding an empty allocated store and on the package variable as it starts. -/
theorem legacy_profile_built_witness :
    (∃ q : AggConfigManager,
      (adaptOldConfig (GlobalStore.assigned AggConfigManager.empty)
          (LegacyFile.content sampleLegacy) none WriteOutcome.ok).global = GlobalStore.assigned q ∧
      (adaptOldConfig (GlobalStore.assigned AggConfigManager.empty)
          (LegacyFile.content sampleLegacy) none WriteOutcome.ok).panicked = false ∧
      q.activeProfile = "default" ∧
      mapGet q.configs "default" = some (sampleProfile "default" true)) ∧
    (adaptOldConfig (GlobalStore.assigned AggConfigManager.empty)
        (LegacyFile.content sampleLegacy) none WriteOutcome.ok).built =
      some (sampleProfile "default" true) ∧
    (adaptOldConfig GlobalStore.zero (LegacyFile.content sampleLegacy) none
        WriteOutcome.ok).panicked = true :=
  ⟨(legacy_profile_built (GlobalStore.assigned AggConfigManager.empty) sampleLegacy none
      WriteOutcome.ok).2.2.1 AggConfigManager.empty (by decide),
   by decide,
   ((legacy_profile_built GlobalStore.zero sampleLegacy none WriteOutcome.ok).2.2.2 rfl).1⟩

theorem adaptOldConfig_returned_stored (g : GlobalStore) (f : LegacyFile)
    (r : Option GoError) (w : WriteOutcome) (h : (adaptOldConfig g f r w).renamed = true)
    (hp : (adaptOldConfig g f r w).panicked = false) :
    ∃ q : AggConfigManager, (adaptOldConfig g f r w).global = GlobalStore.assigned q ∧
      mapGet q.configs DefaultProfile ≠ none := by
  cases hg : g.configs with
  | none =>
    have hf : ∀ e, f ≠ LegacyFile.unreadable e := by
      rintro e rfl
      simp [adaptOldConfig, OldConfig.Load] at h
    have hr : r = none := by
      cases r with
      | none => rfl
      | some e => cases f <;> simp [adaptOldConfig, OldConfig.Load] at h
    subst hr
    rw [(adaptOldConfig_nil_map g f w hg hf).1] at hp
    cases hp
  | some m =>
    cases f with
    | unreadable e => simp [adaptOldConfig, OldConfig.Load] at h
    | absent =>
      cases r with
      | some e => simp [adaptOldConfig, OldConfig.Load] at h
      | none =>
        simp only [adaptOldConfig, OldConfig.Load, AppendGlobal, hg]
        exact ⟨_, rfl, Append_stored _ _ _⟩
    | content oc =>
      cases r with
      | some e => simp [adaptOldConfig, OldConfig.Load] at h
      | none =>
        simp only [adaptOldConfig, OldConfig.Load, AppendGlobal, hg]
        exact ⟨_, rfl, Append_stored _ _ _⟩

theorem AppendGlobal_of_stored (q : AggConfigManager) (x : AggConfig)
    (hx : mapGet q.configs DefaultProfile = some x) (w : WriteOutcome) (c : AggConfig)
    (hc : c.Profile = DefaultProfile) :
    AppendGlobal (GlobalStore.assigned q) c w =
      { global := GlobalStore.assigned q, writes := [],
        err := some (Errorf "profile default exists already"), panicked := false } := by
  have hx' : mapGet q.configs c.Profile = some x := by
    rw [hc]
    exact hx
  have hm : "profile " ++ c.Profile ++ " exists already" = "profile default exists already" := by
    rw [hc]
    decide
  simp only [AppendGlobal, GlobalStore.assigned, Append, hx', hm]

theorem adaptOldConfig_of_stored (q : AggConfigManager) (f : LegacyFile) (r : Option GoError)
    (w : WriteOutcome) (h : mapGet q.configs DefaultProfile ≠ none) :
    (adaptOldConfig (GlobalStore.assigned q) f r w).global = GlobalStore.assigned q ∧
      (adaptOldConfig (GlobalStore.assigned q) f r w).writes = [] ∧
      (adaptOldConfig (GlobalStore.assigned q) f r w).panicked = false ∧
      (∀ e, f = LegacyFile.unreadable e →
        (adaptOldConfig (GlobalStore.assigned q) f r w).err = some e) ∧
      (∀ e, (∀ e', f ≠ LegacyFile.unreadable e') → r = some e →
        (adaptOldConfig (GlobalStore.assigned q) f r w).err = some e) ∧
      ((∀ e', f ≠ LegacyFile.unreadable e') → r = none →
        (adaptOldConfig (GlobalStore.assigned q) f r w).err =
          some (Errorf "profile default exists already")) := by
  obtain ⟨x, hx⟩ := Option.ne_none_iff_exists'.mp h
  have hA := AppendGlobal_of_stored q x hx w
  cases f with
  | unreadable e =>
    refine ⟨rfl, rfl, rfl, ?_, ?_, ?_⟩
    · intro e' he
      cases he
      rfl
    · intro e' hne
      exact absurd rfl (hne e)
    · intro hne
      exact absurd rfl (hne e)
  | absent =>
    cases r with
    | some e =>
      refine ⟨rfl, rfl, rfl, ?_, ?_, ?_⟩
      · intro e' he
        cases he
      · intro e' _ he
        cases he
        rfl
      · intro _ he
        cases he
    | none =>
      have hrun : adaptOldConfig (GlobalStore.assigned q) LegacyFile.absent none w =
          { global := GlobalStore.assigned q, renamed := true,
            built := (adaptOldConfig (GlobalStore.assigned q) LegacyFile.absent none w).built,
            writes := [], err := some (Errorf "profile default exists already"),
            panicked := false } := by
        simp only [adaptOldConfig, OldConfig.Load]
        rw [hA _ rfl]
      rw [hrun]
      refine ⟨rfl, rfl, rfl, ?_, ?_, ?_⟩
      · intro e' he
        cases he
      · intro e' _ he
        cases he
      · intro _ _
        rfl
  | content oc =>
    cases r with
    | some e =>
      refine ⟨rfl, rfl, rfl, ?_, ?_, ?_⟩
      · intro e' he
        cases he
      · intro e' _ he
        cases he
        rfl
      · intro _ he
        cases he
    | none =>
      have hrun : adaptOldConfig (GlobalStore.assigned q) (LegacyFile.content oc) none w =
          { global := GlobalStore.assigned q, renamed := true,
            built := (adaptOldConfig (GlobalStore.assigned q) (LegacyFile.content oc) none w).built,
            writes := [], err := some (Errorf "profile default exists already"),
            panicked := false } := by
        simp only [adaptOldConfig, OldConfig.Load]
        rw [hA _ rfl]
      rw [hrun]
      refine ⟨rfl, rfl, rfl, ?_, ?_, ?_⟩
      · intro e' he
        cases he
      · intro e' _ he
        cases he
      · intro _ _
        rfl

/-- Counterexample to C17 as stated: on the package variable holding an empty
allocated store, a first migration of the scenario record renames the file,
stores "default" and returns no error; a second run then returns the "exists
already" error when the path holds the rewritten settings file and the rename
succeeds, and the error of the rename when the path is absent. -/
theorem second_migration_counterexample :
    ((adaptOldConfig (GlobalStore.assigned AggConfigManager.empty)
        (LegacyFile.content sampleLegacy) none WriteOutcome.ok).err = none ∧
      (adaptOldConfig (GlobalStore.assigned AggConfigManager.empty)
        (LegacyFile.content sampleLegacy) none WriteOutcome.ok).renamed = true ∧
      (adaptOldConfig (GlobalStore.assigned AggConfigManager.empty)
        (LegacyFile.content sampleLegacy) none WriteOutcome.ok).global =
        GlobalStore.assigned
          { activeProfile := "default"
            configs := [("default", sampleProfile "default" true)] }) ∧
    (adaptOldConfig
        (adaptOldConfig (GlobalStore.assigned AggConfigManager.empty)
          (LegacyFile.content sampleLegacy) none WriteOutcome.ok).global
        (LegacyFile.content OldConfig.zero) none WriteOutcome.ok).err =
      some (Errorf "profile default exists already") ∧
    (adaptOldConfig
        (adaptOldConfig (GlobalStore.assigned AggConfigManager.empty)
          (LegacyFile.content sampleLegacy) none WriteOutcome.ok).global
        LegacyFile.absent (some { msg := "rename: no such file or directory", notExist := true })
        WriteOutcome.ok).err =
      some { msg := "rename: no such file or directory", notExist := true } := by
  refine ⟨⟨?_, ?_, ?_⟩, ?_, ?_⟩ <;> decide

/-- C17, amended: a second run of adaptOldConfig, after a first run that
renamed the legacy file and returned from Append, leaves the package variable
as the first run left it, so that no "default" profile is stored anew, issues
no write and does not panic; it returns an error, which is the read error when
the legacy path cannot be read, otherwise the error of the rename when the
rename fails, and otherwise the "profile default exists already" error of
Append. -/
theorem second_migration_rejected (g : GlobalStore) (f1 f2 : LegacyFile)
    (r1 r2 : Option GoError) (w1 w2 : WriteOutcome)
    (h : (adaptOldConfig g f1 r1 w1).renamed = true)
    (hp : (adaptOldConfig g f1 r1 w1).panicked = false) :
    (adaptOldConfig (adaptOldConfig g f1 r1 w1).global f2 r2 w2).global =
        (adaptOldConfig g f1 r1 w1).global ∧
      (adaptOldConfig (adaptOldConfig g f1 r1 w1).global f2 r2 w2).writes = [] ∧
      (adaptOldConfig (adaptOldConfig g f1 r1 w1).global f2 r2 w2).panicked = false ∧
      (∀ e, f2 = LegacyFile.unreadable e →
        (adaptOldConfig (adaptOldConfig g f1 r1 w1).global f2 r2 w2).err = some e) ∧
      (∀ e, (∀ e', f2 ≠ LegacyFile.unreadable e') → r2 = some e →
        (adaptOldConfig (adaptOldConfig g f1 r1 w1).global f2 r2 w2).err = some e) ∧
      ((∀ e', f2 ≠ LegacyFile.unreadable e') → r2 = none →
        (adaptOldConfig (adaptOldConfig g f1 r1 w1).global f2 r2 w2).err =
          some (Errorf "profile default exists already")) := by
  obtain ⟨q, hq, hs⟩ := adaptOldConfig_returned_stored g f1 r1 w1 h hp
  rw [hq]
  exact adaptOldConfig_of_stored q f2 r2 w2 hs

/-- Witness for C17, amended: the scenario record migrated twice on the
package variable holding an empty allocated store, the second run finding the
rewritten settings file at the legacy path. -/
theorem second_migration_rejected_witness :
    (adaptOldConfig
        (adaptOldConfig (GlobalStore.assigned AggConfigManager.empty)
          (LegacyFile.content sampleLegacy) none WriteOutcome.ok).global
        (LegacyFile.content OldConfig.zero) none WriteOutcome.ok).global =
      (adaptOldConfig (GlobalStore.assigned AggConfigManager.empty)
        (LegacyFile.content sampleLegacy) none WriteOutcome.ok).global ∧
    (adaptOldConfig
        (adaptOldConfig (GlobalStore.assigned AggConfigManager.empty)
          (LegacyFile.content sampleLegacy) none WriteOutcome.ok).global
        (LegacyFile.content OldConfig.zero) none WriteOutcome.ok).err =
      some (Errorf "profile default exists already") :=
  ⟨(second_migration_rejected (GlobalStore.assigned AggConfigManager.empty)
      (LegacyFile.content sampleLegacy) (LegacyFile.content OldConfig.zero) none none
      WriteOutcome.ok WriteOutcome.ok rfl rfl).1,
   (second_migration_rejected (GlobalStore.assigned AggConfigManager.empty)
      (LegacyFile.content sampleLegacy) (LegacyFile.content OldConfig.zero) none none
      WriteOutcome.ok WriteOutcome.ok rfl rfl).2.2.2.2.2
      (fun e' he => by cases he) rfl⟩

/-! ## Store construction -/

theorem Load_err_notExist (p : AggConfigManager) (configFile : FileContent CLIConfig)
    (credFile : FileContent CredentialConfig) (e : GoError)
    (h : (Load p configFile credFile).err = some e) : e.notExist = false := by
  have hj : ∀ cs crs, (loadJoin p cs crs).err = some e → e.notExist = false := by
    intro cs crs hj
    rw [loadJoin_err] at hj
    split at hj
    · cases hj
      rfl
    · split at hj
      · cases hj
        rfl
      · cases hj
  cases configFile with
  | readError x =>
    simp only [Load, parseCLIConfigs, Option.some.injEq] at h
    rw [← h]
    rfl
  | malformed x =>
    simp only [Load, parseCLIConfigs, Option.some.injEq] at h
    rw [← h]
    rfl
  | empty =>
    cases credFile with
    | readError x =>
      simp only [Load, parseCLIConfigs, parseCredentials, Option.some.injEq] at h
      rw [← h]
      rfl
    | malformed x =>
      simp only [Load, parseCLIConfigs, parseCredentials, Option.some.injEq] at h
      rw [← h]
      rfl
    | empty => exact hj _ _ h
    | decoded crs => exact hj _ _ h
  | decoded cs =>
    cases credFile with
    | readError x =>
      simp only [Load, parseCLIConfigs, parseCredentials, Option.some.injEq] at h
      rw [← h]
      rfl
    | malformed x =>
      simp only [Load, parseCLIConfigs, parseCredentials, Option.some.injEq] at h
      rw [← h]
      rfl
    | empty => exact hj _ _ h
    | decoded crs => exact hj _ _ h

/-- C18, as the code behaves: whatever the first Load reads and returns,
NewAggConfigManager never calls adaptOldConfig and never retries Load; it
returns the store and the error of the first Load, does not panic and leaves
the package variable untouched.  With a settings file whose read fails with a not-exist error, the
construction returns the "read config failed" error, an empty manager, and no
"default" profile anywhere. -/
theorem construct_never_migrates (cfg1 cfg2 : FileContent CLIConfig)
    (cred1 cred2 : FileContent CredentialConfig) (g : GlobalStore) (f : LegacyFile)
    (renameErr : Option GoError) (w : WriteOutcome) :
    (NewAggConfigManager cfg1 cred1 g f renameErr w cfg2 cred2 =
      { manager := (Load AggConfigManager.empty cfg1 cred1).mgr
        global := g
        migrated := false
        loads := 1
        err := (Load AggConfigManager.empty cfg1 cred1).err
        panicked := false }) ∧
    NewAggConfigManager
        (FileContent.readError { msg := "open config.json: no such file or directory",
                                 notExist := true })
        FileContent.empty GlobalStore.zero (LegacyFile.content sampleLegacy) none
        WriteOutcome.ok (FileContent.decoded [sampleSettings "default" true (some 3)])
        (FileContent.decoded [sampleCredential "default"]) =
      { manager := AggConfigManager.empty
        global := GlobalStore.zero
        migrated := false
        loads := 1
        err := some (Errorf "read config failed: open config.json: no such file or directory")
        panicked := false } := by
  refine ⟨?_, by decide⟩
  unfold NewAggConfigManager
  simp only
  cases h : (Load AggConfigManager.empty cfg1 cred1).err with
  | none => rfl
  | some e => simp [Load_err_notExist _ _ _ e h]

/-! ## The client credential -/

/-- C19: for every profile, every pair of flag keys and every outcome of the
timeout parse, GetBizClient returns a client whenever the max-retry count of
the profile is present, and the credential of every client it returns is the
flag pair when both flag keys are non-empty and the pair of the stored keys of
the profile in every other case; so, unless the two pairs coincide, the
credential is the flag pair exactly when both flag keys are non-empty. -/
theorem biz_client_credential (g : GlobalFlag) (ac : AggConfig) (parseErr : Option GoError) :
    (ac.MaxRetryTimes ≠ none → ∃ bc, GetBizClient g ac parseErr = some bc) ∧
    (∀ bc, GetBizClient g ac parseErr = some bc →
      (g.PublicKey ≠ "" ∧ g.PrivateKey ≠ "" →
        bc.credential = { PublicKey := g.PublicKey, PrivateKey := g.PrivateKey }) ∧
      (¬ (g.PublicKey ≠ "" ∧ g.PrivateKey ≠ "") →
        bc.credential = { PublicKey := ac.PublicKey, PrivateKey := ac.PrivateKey }) ∧
      (({ PublicKey := g.PublicKey, PrivateKey := g.PrivateKey } : Credential) ≠
          { PublicKey := ac.PublicKey, PrivateKey := ac.PrivateKey } →
        (bc.credential = { PublicKey := g.PublicKey, PrivateKey := g.PrivateKey } ↔
          g.PublicKey ≠ "" ∧ g.PrivateKey ≠ ""))) := by
  constructor
  · intro h
    obtain ⟨n, hn⟩ := Option.ne_none_iff_exists'.mp h
    simp [GetBizClient, hn]
  · intro bc hbc
    cases hm : ac.MaxRetryTimes with
    | none => simp [GetBizClient, hm] at hbc
    | some n =>
      simp only [GetBizClient, hm, Option.some.injEq] at hbc
      subst hbc
      by_cases hb : g.PublicKey ≠ "" ∧ g.PrivateKey ≠ ""
      · refine ⟨fun _ => ?_, fun hn => absurd hb hn, fun _ => ⟨fun _ => hb, fun _ => ?_⟩⟩
        · exact if_pos hb
        · exact if_pos hb
      · refine ⟨fun h => absurd h hb, fun _ => ?_, fun hne => ⟨fun he => ?_, fun h => absurd h hb⟩⟩
        · exact if_neg hb
        · have he' := he
          simp only [if_neg hb] at he'
          exact absurd he'.symm hne

/-- Witness for C19: with the flag pair "fpk"/"fsk" the credential is the flag
pair; with the public flag key alone it is the pair of the stored keys. -/
theorem biz_client_credential_witness :
    (∃ bc, GetBizClient { PublicKey := "fpk", PrivateKey := "fsk" } (sampleProfile "A" true) none =
      some bc) ∧
    (∀ bc, GetBizClient { PublicKey := "fpk", PrivateKey := "fsk" } (sampleProfile "A" true) none =
        some bc → bc.credential = { PublicKey := "fpk", PrivateKey := "fsk" }) ∧
    (∀ bc, GetBizClient { PublicKey := "fpk", PrivateKey := "" } (sampleProfile "A" true) none =
        some bc → bc.credential = { PublicKey := "pk", PrivateKey := "sk" }) :=
  ⟨(biz_client_credential { PublicKey := "fpk", PrivateKey := "fsk" } (sampleProfile "A" true)
      none).1 (by decide),
   fun bc h => ((biz_client_credential { PublicKey := "fpk", PrivateKey := "fsk" }
      (sampleProfile "A" true) none).2 bc h).1 (by decide),
   fun bc h => ((biz_client_credential { PublicKey := "fpk", PrivateKey := "" }
      (sampleProfile "A" true) none).2 bc h).2.1 (by decide)⟩

/-! ## Updating a stored profile -/

theorem mapGet_demote_ne (m : List (String × AggConfig)) {k n : String} (h : k ≠ n) :
    mapGet (demote m k) n = mapGet m n := by
  unfold demote
  split
  · exact mapGet_mapSet_ne _ _ h
  · rfl

theorem UpdateAggConfig_keeps_stored (p : AggConfigManager) (c x : AggConfig)
    (w : WriteOutcome) (h : mapGet p.configs c.Profile = some x) :
    mapGet (UpdateAggConfig p c w).mgr.configs c.Profile = some x := by
  simp only [UpdateAggConfig, h, Save, handOff]
  split
  · next hc =>
    simp only
    rw [mapGet_demote_ne _ (Ne.symm hc.2)]
    exact h
  · exact h

/-- C20, as the code behaves: UpdateAggConfig with a profile whose name is
stored leaves the profile stored under that name as it was, whatever the
field values of the argument.  On the store holding an active "A" and an
inactive "B", updating with an active "B" of region "cn-sh2" keeps the stored
"B" inactive with region "cn-bj2", demotes "A" and tracks "B", so that
GetActiveAggConfig returns a profile whose Active flag is not set and no
stored profile is active. -/
theorem update_existing_not_stored :
    (∀ (p : AggConfigManager) (c x : AggConfig) (w : WriteOutcome),
      mapGet p.configs c.Profile = some x →
        mapGet (UpdateAggConfig p c w).mgr.configs c.Profile = some x) ∧
    mapGet (UpdateAggConfig
        (run [.append (sampleProfile "A" true) .ok, .append (sampleProfile "B" false) .ok])
        { sampleProfile "B" true with Region := "cn-sh2" } .ok).mgr.configs "B" =
      some (sampleProfile "B" false) ∧
    GetActiveAggConfig (UpdateAggConfig
        (run [.append (sampleProfile "A" true) .ok, .append (sampleProfile "B" false) .ok])
        { sampleProfile "B" true with Region := "cn-sh2" } .ok).mgr =
      Except.ok (sampleProfile "B" false) ∧
    activeCount (UpdateAggConfig
        (run [.append (sampleProfile "A" true) .ok, .append (sampleProfile "B" false) .ok])
        { sampleProfile "B" true with Region := "cn-sh2" } .ok).mgr = 0 ∧
    (UpdateAggConfig
        (run [.append (sampleProfile "A" true) .ok, .append (sampleProfile "B" false) .ok])
        { sampleProfile "B" true with Region := "cn-sh2" } .ok).err = none := by
  refine ⟨UpdateAggConfig_keeps_stored, by decide, rfl, by decide, by decide⟩

/-! ## Remarks -/

/-- The tracked active name and the Active flag also part without any call of
UpdateAggConfig: after one Append of an inactive profile with the empty name
to the empty store, GetActiveAggConfig returns that profile and DeleteByProfile
removes it. -/
theorem delete_tracked_empty_name :
    GetActiveAggConfig (run [.append (sampleProfile "" false) .ok]) =
      Except.ok (sampleProfile "" false) ∧
    (DeleteByProfile (run [.append (sampleProfile "" false) .ok]) "" .ok).err = none ∧
    (DeleteByProfile (run [.append (sampleProfile "" false) .ok]) "" .ok).mgr.configs = [] := by
  refine ⟨rfl, ?_, ?_⟩ <;> decide

/-! ## Save followed by Load on a well-formed store -/

/-- C21: for every store with distinct keys in which each key equals the name
of its profile, every name is non-empty, every max-retry count is present, and
which is empty or has exactly one profile with the Active flag set, Load on a
fresh store over the two lists Save builds, taken in any order, returns no
error, binds every name exactly as the store does, holds the same entries, and
tracks as active the name of the one active profile, or the empty name when
the store is empty. -/
theorem save_load_wellformed (p : AggConfigManager) (configs : List CLIConfig)
    (credentials : List CredentialConfig)
    (hn : NodupKeys p.configs)
    (hk : ∀ kv ∈ p.configs, kv.2.Profile = kv.1)
    (hne : ∀ kv ∈ p.configs, kv.2.Profile ≠ "")
    (hr : ∀ kv ∈ p.configs, kv.2.MaxRetryTimes ≠ none)
    (ha : p.configs = [] ∨ activeCount p = 1)
    (hc : configs.Perm (SaveRecords p).1)
    (hcr : credentials.Perm (SaveRecords p).2) :
    (Load AggConfigManager.empty (FileContent.decoded configs)
        (FileContent.decoded credentials)).err = none ∧
    (∀ n, mapGet (Load AggConfigManager.empty (FileContent.decoded configs)
        (FileContent.decoded credentials)).mgr.configs n = mapGet p.configs n) ∧
    (Load AggConfigManager.empty (FileContent.decoded configs)
        (FileContent.decoded credentials)).mgr.configs.Perm p.configs ∧
    (p.configs = [] →
      (Load AggConfigManager.empty (FileContent.decoded configs)
        (FileContent.decoded credentials)).mgr.activeProfile = "") ∧
    (∀ kv ∈ p.configs, kv.2.Active = true →
      (Load AggConfigManager.empty (FileContent.decoded configs)
        (FileContent.decoded credentials)).mgr.activeProfile = kv.2.Profile) := by
  have hs : SavedAs p configs credentials := ⟨hn, hk, hr, hc, hcr⟩
  have hnd : NodupKeys (Load AggConfigManager.empty (FileContent.decoded configs)
      (FileContent.decoded credentials)).mgr.configs := by
    rw [hs.load_eq, loadJoin_mgr]
    exact nodupKeys_joinProfiles _ _ _ nodupKeys_nil
  refine ⟨?_, hs.mapGet_load, perm_of_mapGet_eq hnd hn hs.mapGet_load, ?_, ?_⟩
  · rcases ha with he | h1
    · rw [hs.load_empty he]
    · have hpos : 0 < (p.configs.filter (fun kv => kv.2.Active)).length := by
        unfold activeCount at h1
        omega
      obtain ⟨kv0, hkv0⟩ := List.exists_mem_of_length_pos hpos
      obtain ⟨hmem0, hact0⟩ := List.mem_filter.mp hkv0
      have ht : kv0.1 ≠ "" := by
        rw [← hk kv0 hmem0]
        exact hne kv0 hmem0
      have hall : ∀ kv ∈ p.configs, kv.2.Active = true → kv.1 = kv0.1 := by
        intro kv hkv hact
        have hle : (p.configs.filter (fun kv => kv.2.Active)).length ≤ 1 := by
          unfold activeCount at h1
          omega
        have e : kv = kv0 :=
          eq_of_mem_of_length_le_one hle (List.mem_filter.mpr ⟨hkv, hact⟩) hkv0
        rw [e]
      exact (hs.load_active kv0.1 ht ⟨kv0, hmem0, hact0⟩ hall).1
  · intro he
    rw [hs.load_empty he]
    rfl
  · intro kv hkv hact
    rcases ha with he | h1
    · rw [he] at hkv
      simp at hkv
    · have hall : ∀ x ∈ p.configs, x.2.Active = true → x.1 = kv.1 := by
        intro x hx hxa
        have hle : (p.configs.filter (fun kv => kv.2.Active)).length ≤ 1 := by
          unfold activeCount at h1
          omega
        have e : x = kv :=
          eq_of_mem_of_length_le_one hle (List.mem_filter.mpr ⟨hx, hxa⟩)
            (List.mem_filter.mpr ⟨hkv, hact⟩)
        rw [e]
      have ht : kv.1 ≠ "" := by
        rw [← hk kv hkv]
        exact hne kv hkv
      rw [(hs.load_active kv.1 ht ⟨kv, hkv, hact⟩ hall).2]
      exact (hk kv hkv).symm

/-- Witness for C21: the store holding an inactive "A" and an active "B",
reloaded from the lists Save builds. -/
theorem save_load_wellformed_witness :
    (Load AggConfigManager.empty
        (FileContent.decoded [sampleSettings "A" false (some 3), sampleSettings "B" true (some 3)])
        (FileContent.decoded [sampleCredential "A", sampleCredential "B"])).err = none ∧
    (Load AggConfigManager.empty
        (FileContent.decoded [sampleSettings "A" false (some 3), sampleSettings "B" true (some 3)])
        (FileContent.decoded [sampleCredential "A", sampleCredential "B"])).mgr.activeProfile =
      "B" ∧
    (Load AggConfigManager.empty
        (FileContent.decoded [sampleSettings "A" false (some 3), sampleSettings "B" true (some 3)])
        (FileContent.decoded [sampleCredential "A", sampleCredential "B"])).mgr.configs =
      [("A", sampleProfile "A" false), ("B", sampleProfile "B" true)] :=
  ⟨(save_load_wellformed
      { activeProfile := "B"
        configs := [("A", sampleProfile "A" false), ("B", sampleProfile "B" true)] }
      [sampleSettings "A" false (some 3), sampleSettings "B" true (some 3)]
      [sampleCredential "A", sampleCredential "B"]
      (by simp [NodupKeys, mapKeys]) (by decide) (by decide) (by decide) (Or.inr (by decide))
      (List.Perm.refl _) (List.Perm.refl _)).1,
   (save_load_wellformed
      { activeProfile := "B"
        configs := [("A", sampleProfile "A" false), ("B", sampleProfile "B" true)] }
      [sampleSettings "A" false (some 3), sampleSettings "B" true (some 3)]
      [sampleCredential "A", sampleCredential "B"]
      (by simp [NodupKeys, mapKeys]) (by decide) (by decide) (by decide) (Or.inr (by decide))
      (List.Perm.refl _) (List.Perm.refl _)).2.2.2.2
      ("B", sampleProfile "B" true) (by decide) rfl,
   by decide⟩

end UCloud
